import Mathlib

/-!
Verification of `pkg/backup/remap_crd_version_action.go`

A shallow embedding of `RemapCRDVersionAction.Execute`: the unstructured document is a
JSON-like value, the in-place mutation of the item is explicit state passing, and the Go
triple `(item, additionalItems, err)` is a record.  Logging has no effect on the result and
is left out; the `backup` argument is never read by the function and is left out as well.
-/

namespace RemapCRD

/-! ## Unstructured content -/

/-- An unstructured JSON value as held in `map[string]interface{}`: `nil`, `bool`, a number,
`string`, `[]interface{}` or a nested `map[string]interface{}`.  A map is an association list
read by first match on the key. -/
inductive Value where
  | null : Value
  | bool (b : Bool) : Value
  | num (n : Int) : Value
  | str (s : String) : Value
  | arr (xs : List Value) : Value
  | obj (kvs : List (String × Value)) : Value

/-- The content of an item, `map[string]interface{}`. -/
abbrev Obj := List (String × Value)

/-- Go map read `m[k]`. -/
def lookup : Obj → String → Option Value
  | [], _ => none
  | (k', v) :: rest, k => if k' = k then some v else lookup rest k

/-- Go map write `m[k] = v`: an existing key keeps its place, a new key is added. -/
def setKey : Obj → String → Value → Obj
  | [], k, v => [(k, v)]
  | (k', v') :: rest, k, v =>
    if k' = k then (k, v) :: rest else (k', v') :: setKey rest k v

/-- The library function `unstructured.SetNestedField(obj, value, fields...)`: walks the maps
named by all but the last field, creating the missing ones, fails when a value on the way is
not a map, and writes the value under the last field.  (With no field at all the Go code
indexes out of range; that is an error here.) -/
def SetNestedField : Obj → Value → List String → Except String Obj
  | _, _, [] => .error "no fields"
  | m, value, [field] => .ok (setKey m field value)
  | m, value, field :: next :: fields =>
    match lookup m field with
    | some (.obj valMap) =>
      match SetNestedField valMap value (next :: fields) with
      | .ok valMap' => .ok (setKey m field (.obj valMap'))
      | .error e => .error e
    | some _ => .error ("value cannot be set because " ++ field ++ " is not a map")
    | none =>
      match SetNestedField [] value (next :: fields) with
      | .ok newVal => .ok (setKey m field (.obj newVal))
      | .error e => .error e

/-! ## The typed view `apiextv1.CustomResourceDefinition` -/

/-- The type `apiextv1.JSONSchemaProps`; only its presence is read by the action. -/
structure JSONSchemaProps where
  deriving DecidableEq, Repr

/-- The type `apiextv1.CustomResourceValidation`. -/
structure CustomResourceValidation where
  OpenAPIV3Schema : Option JSONSchemaProps
  deriving DecidableEq, Repr

/-- The type `apiextv1.CustomResourceDefinitionVersion`. -/
structure CustomResourceDefinitionVersion where
  Name : String
  Schema : Option CustomResourceValidation
  deriving DecidableEq, Repr

/-- The type `apiextv1.CustomResourceDefinitionCondition`; its field `Type` is `Type_` here. -/
structure CustomResourceDefinitionCondition where
  Type_ : String
  Status : String
  deriving DecidableEq, Repr

/-- The type `apiextv1.CustomResourceDefinitionSpec`. -/
structure CustomResourceDefinitionSpec where
  Versions : List CustomResourceDefinitionVersion
  deriving DecidableEq, Repr

/-- The type `apiextv1.CustomResourceDefinitionStatus`. -/
structure CustomResourceDefinitionStatus where
  Conditions : List CustomResourceDefinitionCondition
  deriving DecidableEq, Repr

/-- The type `apiextv1.CustomResourceDefinition`, with the inlined `TypeMeta` and the name of
`ObjectMeta`. -/
structure CustomResourceDefinition where
  Kind : String
  APIVersion : String
  Name : String
  Spec : CustomResourceDefinitionSpec
  Status : CustomResourceDefinitionStatus
  deriving DecidableEq, Repr

/-- The constant `apiextv1.NonStructuralSchema`. -/
def NonStructuralSchema : String := "NonStructuralSchema"

/-! ## The projection -/

/-- Modelled from the spec: the conversion of a field to a Go `string`.  An absent field
(a missing key or `nil`) gives the zero value, a string gives itself, any other shape is an
error. -/
def stringFromUnstructured : Option Value → Except String String
  | none => .ok ""
  | some .null => .ok ""
  | some (.str s) => .ok s
  | some _ => .error "cannot convert to string"

/-- Modelled from the spec: the conversion of a slice field, element by element; the first
element that fails makes the slice fail. -/
def sliceFromUnstructured {β : Type} (f : Value → Except String β) :
    List Value → Except String (List β)
  | [] => .ok []
  | x :: xs =>
    match f x with
    | .error e => .error e
    | .ok y =>
      match sliceFromUnstructured f xs with
      | .error e => .error e
      | .ok ys => .ok (y :: ys)

/-- Modelled from the spec: the `schema` field of a version, "either absent or
present-with-a-sub-schema field, itself either absent or present". -/
def validationFromUnstructured : Option Value → Except String (Option CustomResourceValidation)
  | none => .ok none
  | some .null => .ok none
  | some (.obj s) =>
    match lookup s "openAPIV3Schema" with
    | none => .ok (some ⟨none⟩)
    | some .null => .ok (some ⟨none⟩)
    | some (.obj _) => .ok (some ⟨some ⟨⟩⟩)
    | some _ => .error "cannot restore struct from openAPIV3Schema"
  | some _ => .error "cannot restore struct from schema"

/-- Modelled from the spec: one entry of `spec.versions`. -/
def versionFromUnstructured : Value → Except String CustomResourceDefinitionVersion
  | .null => .ok ⟨"", none⟩
  | .obj m =>
    match stringFromUnstructured (lookup m "name") with
    | .error e => .error e
    | .ok name =>
      match validationFromUnstructured (lookup m "schema") with
      | .error e => .error e
      | .ok schema => .ok ⟨name, schema⟩
  | _ => .error "cannot restore struct from versions entry"

/-- Modelled from the spec: one entry of `status.conditions`, "a record with string
fields". -/
def conditionFromUnstructured : Value → Except String CustomResourceDefinitionCondition
  | .null => .ok ⟨"", ""⟩
  | .obj m =>
    match stringFromUnstructured (lookup m "type") with
    | .error e => .error e
    | .ok type =>
      match stringFromUnstructured (lookup m "status") with
      | .error e => .error e
      | .ok status => .ok ⟨type, status⟩
  | _ => .error "cannot restore struct from conditions entry"

/-- Modelled from the spec: the `spec` field. -/
def specFromUnstructured : Option Value → Except String CustomResourceDefinitionSpec
  | none => .ok ⟨[]⟩
  | some .null => .ok ⟨[]⟩
  | some (.obj m) =>
    match lookup m "versions" with
    | none => .ok ⟨[]⟩
    | some .null => .ok ⟨[]⟩
    | some (.arr xs) =>
      match sliceFromUnstructured versionFromUnstructured xs with
      | .error e => .error e
      | .ok versions => .ok ⟨versions⟩
    | some _ => .error "cannot restore slice from versions"
  | some _ => .error "cannot restore struct from spec"

/-- Modelled from the spec: the `status` field. -/
def statusFromUnstructured : Option Value → Except String CustomResourceDefinitionStatus
  | none => .ok ⟨[]⟩
  | some .null => .ok ⟨[]⟩
  | some (.obj m) =>
    match lookup m "conditions" with
    | none => .ok ⟨[]⟩
    | some .null => .ok ⟨[]⟩
    | some (.arr xs) =>
      match sliceFromUnstructured conditionFromUnstructured xs with
      | .error e => .error e
      | .ok conditions => .ok ⟨conditions⟩
    | some _ => .error "cannot restore slice from conditions"
  | some _ => .error "cannot restore struct from status"

/-- Modelled from the spec: the `metadata.name` field. -/
def nameFromUnstructured : Option Value → Except String String
  | none => .ok ""
  | some .null => .ok ""
  | some (.obj m) => stringFromUnstructured (lookup m "name")
  | some _ => .error "cannot restore struct from metadata"

/-- Modelled from the spec: the library conversion
`runtime.DefaultUnstructuredConverter.FromUnstructured` into
`apiextv1.CustomResourceDefinition` is missing from the sources.  It is the projection of
spec §4.1 step 1 onto the fields the view names (`apiVersion`, `kind`, `metadata.name`,
`spec.versions[].name`, `spec.versions[].schema.openAPIV3Schema`,
`status.conditions[].type`, `status.conditions[].status`): a field that is present with the
wrong shape is an error, an absent field (a missing key or `nil`) is the zero value, and keys
the view does not name are ignored.  The inside of `openAPIV3Schema` and the other typed
fields of the library type are not examined. -/
def FromUnstructured (u : Obj) : Except String CustomResourceDefinition :=
  match stringFromUnstructured (lookup u "kind") with
  | .error e => .error e
  | .ok kind =>
    match stringFromUnstructured (lookup u "apiVersion") with
    | .error e => .error e
    | .ok apiVersion =>
      match nameFromUnstructured (lookup u "metadata") with
      | .error e => .error e
      | .ok name =>
        match specFromUnstructured (lookup u "spec") with
        | .error e => .error e
        | .ok spec =>
          match statusFromUnstructured (lookup u "status") with
          | .error e => .error e
          | .ok status => .ok ⟨kind, apiVersion, name, spec, status⟩

/-! ## The action -/

/-- The type `velero.ResourceIdentifier`. -/
structure ResourceIdentifier where
  Group : String
  Resource : String
  Namespace : String
  Name : String
  deriving DecidableEq, Repr

/-- The three values returned by `Execute`: the item (`none` is `nil`), the additional items
(`nil` is the empty list) and the error (`none` is `nil`). -/
structure ExecuteReturn where
  item : Option Obj
  additionalItems : List ResourceIdentifier
  err : Option String

/-- The function `errors.Wrap(err, message)`. -/
def Wrap (err : String) (message : String) : String := message ++ ": " ++ err

/-- The literal written to `apiVersion`. -/
def v1beta1 : String := "apiextensions.k8s.io/v1beta1"

/-- Lines 56-71, "check spec schema": the content of the item after the block, or the error
of `SetNestedField`. -/
def checkSpecSchema (crd : CustomResourceDefinition) (content : Obj) : Except String Obj :=
  match crd.Spec.Versions with
  | [] => .ok content
  | first :: _ =>
    match first.Schema with
    | none => SetNestedField content (.str v1beta1) ["apiVersion"]
    | some schema =>
      if schema.OpenAPIV3Schema = none then
        SetNestedField content (.str v1beta1) ["apiVersion"]
      else .ok content

/-- Lines 73-87, "check status condition": the loop over the conditions, which writes and
breaks at the first condition of type `NonStructuralSchema`. -/
def checkStatusCondition :
    List CustomResourceDefinitionCondition → Obj → Except String Obj
  | [], content => .ok content
  | c :: rest, content =>
    if c.Type_ = NonStructuralSchema then
      SetNestedField content (.str v1beta1) ["apiVersion"]
    else checkStatusCondition rest content

/-- The method `RemapCRDVersionAction.Execute`.  The first component is what the call returns,
the second the content of the input item after the call. -/
def Execute (item : Obj) : ExecuteReturn × Obj :=
  match FromUnstructured item with
  | .error err => (⟨none, [], some (Wrap err "unable to convert unstructured item to CRD")⟩, item)
  | .ok crd =>
    match checkSpecSchema crd item with
    | .error err => (⟨none, [], some (Wrap err "unable to set apiversion to v1beta1")⟩, item)
    | .ok content1 =>
      match checkStatusCondition crd.Status.Conditions content1 with
      | .error err =>
        (⟨none, [], some (Wrap err "unable to set apiversion to v1beta1")⟩, content1)
      | .ok content2 => (⟨some content2, [], none⟩, content2)

/-- Modelled from the spec: the type `velero.ResourceSelector` is declared outside the
sources; its fields are the included and excluded namespaces, the included and excluded
resources and the label selector.  A field left out of a Go struct literal has its zero
value, which is the default here. -/
structure ResourceSelector where
  IncludedNamespaces : List String := []
  ExcludedNamespaces : List String := []
  IncludedResources : List String := []
  ExcludedResources : List String := []
  LabelSelector : String := ""
  deriving DecidableEq, Repr

/-- The method `RemapCRDVersionAction.AppliesTo`: the selector and the error (`none` is
`nil`). -/
def AppliesTo : ResourceSelector × Option String :=
  ({ IncludedResources := ["customresourcedefinition.apiextensions.k8s.io"] }, none)

/-! ## Reading the raw document -/

/-- A field of a raw record that is present: the key exists and its value is not `nil`. -/
def Value.field : Value → String → Option Value
  | .obj m, k =>
    match lookup m k with
    | some .null => none
    | r => r
  | _, _ => none

/-- The entries of `spec.versions` in the raw document; no entry when the field is absent. -/
def docVersions (item : Obj) : List Value :=
  match (Value.obj item).field "spec" with
  | some spec =>
    match spec.field "versions" with
    | some (.arr xs) => xs
    | _ => []
  | none => []

/-- The entries of `status.conditions` in the raw document; no entry when the field is
absent. -/
def docConditions (item : Obj) : List Value :=
  match (Value.obj item).field "status" with
  | some status =>
    match status.field "conditions" with
    | some (.arr xs) => xs
    | _ => []
  | none => []

/-- A raw versions entry has a `schema` in which `openAPIV3Schema` is present. -/
def hasOpenAPIV3Schema (entry : Value) : Bool :=
  match entry.field "schema" with
  | some schema => (schema.field "openAPIV3Schema").isSome
  | none => false

/-- The `type` string of a raw conditions entry, when it has one. -/
def conditionType (entry : Value) : Option String :=
  match entry.field "type" with
  | some (.str s) => some s
  | _ => none

/-! ## The scenarios of the specification -/

/-- Scenario 1 of spec §8. -/
def scenario1 : Obj :=
  [("apiVersion", .str "apiextensions.k8s.io/v1"),
   ("spec", .obj [("versions",
      .arr [.obj [("name", .str "v1"), ("schema", .obj [("openAPIV3Schema", .obj [])])]])]),
   ("status", .obj [("conditions", .arr [])])]

/-- Scenario 2 of spec §8. -/
def scenario2 : Obj :=
  [("apiVersion", .str "apiextensions.k8s.io/v1"),
   ("spec", .obj [("versions", .arr [.obj [("name", .str "v1")]])])]

/-- Scenario 3 of spec §8. -/
def scenario3 : Obj :=
  [("apiVersion", .str "apiextensions.k8s.io/v1"),
   ("spec", .obj [("versions",
      .arr [.obj [("name", .str "v1"), ("schema", .obj [("openAPIV3Schema", .obj [])])]])]),
   ("status", .obj [("conditions",
      .arr [.obj [("type", .str "Established"), ("status", .str "True")],
            .obj [("type", .str "NonStructuralSchema"), ("status", .str "True")]])])]

/-- Scenario 4 of spec §8. -/
def scenario4 : Obj :=
  [("apiVersion", .str "apiextensions.k8s.io/v1"),
   ("spec", .obj [("versions", .str "not-a-list")])]

/-! ## The two predicates on the typed view -/

/-- A typed version entry has no `Schema`, or a `Schema` without `OpenAPIV3Schema`. -/
def versionLacksSchema (v : CustomResourceDefinitionVersion) : Bool :=
  match v.Schema with
  | none => true
  | some schema => schema.OpenAPIV3Schema.isNone

/-- Predicate A of spec §4.1 step 2, on the typed view. -/
def PredicateA (crd : CustomResourceDefinition) : Bool :=
  match crd.Spec.Versions with
  | [] => false
  | first :: _ => versionLacksSchema first

/-- Predicate B of spec §4.1 step 3, on the typed view. -/
def PredicateB (crd : CustomResourceDefinition) : Bool :=
  crd.Status.Conditions.any (fun c => decide (c.Type_ = NonStructuralSchema))

/-! ## Definitions used to state the claims -/

/-- Predicate A read on the raw document: `spec.versions` has a first entry and that entry
has no `schema` with `openAPIV3Schema`. -/
def docPredicateA (item : Obj) : Bool :=
  match docVersions item with
  | [] => false
  | first :: _ => !hasOpenAPIV3Schema first

/-- Predicate B read on the raw document: some entry of `status.conditions` has the type
`NonStructuralSchema`. -/
def docPredicateB (item : Obj) : Bool :=
  (docConditions item).any (fun c => decide (conditionType c = some NonStructuralSchema))

/-- Two raw condition entries differ at most in their `status` string: they are the same
entry, or two records that read the same under every key other than `status` and whose
`status` is a string in both. -/
def differOnlyInStatus (c c' : Value) : Prop :=
  c' = c ∨ ∃ m m' s s', c = .obj m ∧ c' = .obj m' ∧
    (∀ k, k ≠ "status" → lookup m' k = lookup m k) ∧
    lookup m "status" = some (.str s) ∧ lookup m' "status" = some (.str s')

/-- A document with a field the projection does not know, rewritten by Predicate A. -/
def unknownFieldsDoc : Obj :=
  [("kind", .str "CustomResourceDefinition"),
   ("x-unknown", .arr [.num 1, .bool true, .null]),
   ("apiVersion", .str "apiextensions.k8s.io/v1"),
   ("spec", .obj [("group", .str "example.com"), ("versions", .arr [.obj [("name", .str "v1")]])])]

/-- A document whose conditions hold an entry with a number for `type`. -/
def badConditionDoc : Obj :=
  [("apiVersion", .str "apiextensions.k8s.io/v1"),
   ("spec", .obj [("versions",
      .arr [.obj [("name", .str "v1"), ("schema", .obj [("openAPIV3Schema", .obj [])])]])]),
   ("status", .obj [("conditions",
      .arr [.obj [("type", .str "Established"), ("status", .str "True")],
            .obj [("type", .num 7), ("status", .str "True")]])])]

/-- Scenario 3 with the status of its `NonStructuralSchema` condition set to `"False"`. -/
def scenario3False : Obj :=
  setKey scenario3 "status" (.obj [("conditions",
    .arr [.obj [("type", .str "Established"), ("status", .str "True")],
          .obj [("type", .str "NonStructuralSchema"), ("status", .str "False")]])])

/-- Scenario 1 with a second versions entry that has no schema. -/
def mixedVersionsDoc : Obj :=
  setKey scenario1 "spec" (.obj [("versions",
    .arr [.obj [("name", .str "v1"), ("schema", .obj [("openAPIV3Schema", .obj [])])],
          .obj [("name", .str "v2")]])])

/-- A CustomResourceDefinition whose conversion webhook references the Service `conv-svc`
of the namespace `default`. -/
def webhookCRD : Obj :=
  [("apiVersion", .str "apiextensions.k8s.io/v1"),
   ("kind", .str "CustomResourceDefinition"),
   ("metadata", .obj [("name", .str "widgets.example.com")]),
   ("spec", .obj
     [("group", .str "example.com"),
      ("conversion", .obj
        [("strategy", .str "Webhook"),
         ("webhook", .obj
           [("clientConfig", .obj
              [("service", .obj [("namespace", .str "default"), ("name", .str "conv-svc")])]),
            ("conversionReviewVersions", .arr [.str "v1"])])]),
      ("versions",
        .arr [.obj [("name", .str "v1"), ("schema", .obj [("openAPIV3Schema", .obj [])])]])])]

/-- A document whose conditions are a `nil` entry, a record without fields and a record
with a `type` and no `status`. -/
def looseConditionsDoc : Obj :=
  [("apiVersion", .str "apiextensions.k8s.io/v1"),
   ("spec", .obj [("versions",
      .arr [.obj [("name", .str "v1"), ("schema", .obj [("openAPIV3Schema", .obj [])])]])]),
   ("status", .obj [("conditions",
      .arr [.null, .obj [], .obj [("type", .str "Established")]])])]

/-- Reference check for the comparison with the first-entry check: some entry of the
versions lacks a schema. -/
def someVersionLacksSchema (versions : List CustomResourceDefinitionVersion) : Bool :=
  versions.any versionLacksSchema

/-- Reference check for the comparison with the first-entry check: every entry of the
versions lacks a schema. -/
def everyVersionLacksSchema (versions : List CustomResourceDefinitionVersion) : Bool :=
  versions.all versionLacksSchema

/-- Reference for the comparison with `Execute`, after spec §4.1 step 4: one decision, "if
Predicate A or Predicate B is true, set the top-level `apiVersion` to the legacy literal",
else the document as it is. -/
def RemapReference (crd : CustomResourceDefinition) (item : Obj) : Obj :=
  if PredicateA crd || PredicateB crd then setKey item "apiVersion" (.str v1beta1) else item

/-- A document on which both predicates hold and two conditions carry the marker. -/
def bothPredicatesDoc : Obj :=
  [("apiVersion", .str "apiextensions.k8s.io/v1"),
   ("spec", .obj [("versions", .arr [.obj [("name", .str "v1")]])]),
   ("status", .obj [("conditions",
      .arr [.obj [("type", .str "NonStructuralSchema"), ("status", .str "True")],
            .obj [("type", .str "NonStructuralSchema"), ("status", .str "False")]])])]

/-- A document without `apiVersion` on which Predicate A holds. -/
def noVersionLegacyDoc : Obj :=
  [("kind", .str "CustomResourceDefinition"),
   ("spec", .obj [("versions", .arr [.obj [("name", .str "v1")]])])]

/-- A document without `apiVersion` on which neither predicate holds. -/
def noVersionModernDoc : Obj :=
  [("kind", .str "CustomResourceDefinition"),
   ("spec", .obj [("versions",
      .arr [.obj [("name", .str "v1"), ("schema", .obj [("openAPIV3Schema", .obj [])])]])])]

/-- Go `delete(m, k)`: the map without the key. -/
def deleteKey : Obj → String → Obj
  | [], _ => []
  | (k', v) :: rest, k =>
    if k' = k then deleteKey rest k else (k', v) :: deleteKey rest k

/-- The document with the versions entries replaced, everything else kept. -/
def withVersions (item sp : Obj) (versions : List Value) : Obj :=
  setKey item "spec" (.obj (setKey sp "versions" (.arr versions)))

/-! ## Maps -/

theorem lookup_setKey_same (m : Obj) (k : String) (v : Value) :
    lookup (setKey m k v) k = some v := by
  induction m with
  | nil => simp [setKey, lookup]
  | cons p rest ih =>
    obtain ⟨k', v'⟩ := p
    by_cases h : k' = k
    · simp [setKey, lookup, h]
    · simp [setKey, lookup, h, ih]

theorem lookup_setKey_ne (m : Obj) (k k₂ : String) (v : Value) (hne : k₂ ≠ k) :
    lookup (setKey m k v) k₂ = lookup m k₂ := by
  induction m with
  | nil =>
    have h : ¬ k = k₂ := fun h => hne h.symm
    simp [setKey, lookup, h]
  | cons p rest ih =>
    obtain ⟨k', v'⟩ := p
    by_cases h : k' = k
    · subst h
      have h₂ : ¬ k' = k₂ := fun h => hne h.symm
      simp [setKey, lookup, h₂]
    · by_cases h₂ : k' = k₂
      · subst h₂
        simp [setKey, lookup, h]
      · simp [setKey, lookup, h, h₂, ih]

theorem setKey_setKey_same (m : Obj) (k : String) (v w : Value) :
    setKey (setKey m k v) k w = setKey m k w := by
  induction m with
  | nil => simp [setKey]
  | cons p rest ih =>
    obtain ⟨k', v'⟩ := p
    by_cases h : k' = k
    · simp [setKey, h]
    · simp [setKey, h, ih]

theorem filter_setKey (m : Obj) (k : String) (v : Value) :
    (setKey m k v).filter (fun p => decide (p.1 ≠ k)) = m.filter (fun p => decide (p.1 ≠ k)) := by
  induction m with
  | nil => simp [setKey]
  | cons p rest ih =>
    obtain ⟨k', v'⟩ := p
    by_cases h : k' = k
    · simp [setKey, h]
    · have ih' := ih
      simp only [ne_eq, decide_not] at ih' ⊢
      simp [setKey, h, ih']

theorem SetNestedField_single (m : Obj) (value : Value) (field : String) :
    SetNestedField m value [field] = .ok (setKey m field value) := by
  simp [SetNestedField]

/-! ## The two checks -/

theorem checkSpecSchema_eq (crd : CustomResourceDefinition) (content : Obj) :
    checkSpecSchema crd content =
      .ok (if PredicateA crd then setKey content "apiVersion" (.str v1beta1) else content) := by
  unfold checkSpecSchema PredicateA
  cases hv : crd.Spec.Versions with
  | nil => simp
  | cons first rest =>
    cases hs : first.Schema with
    | none => simp [versionLacksSchema, hs, SetNestedField_single]
    | some schema =>
      cases ho : schema.OpenAPIV3Schema with
      | none => simp [versionLacksSchema, hs, ho, SetNestedField_single]
      | some o => simp [versionLacksSchema, hs, ho]

theorem checkStatusCondition_eq (cs : List CustomResourceDefinitionCondition) (content : Obj) :
    checkStatusCondition cs content =
      .ok (if cs.any (fun c => decide (c.Type_ = NonStructuralSchema))
        then setKey content "apiVersion" (.str v1beta1) else content) := by
  induction cs with
  | nil => simp [checkStatusCondition]
  | cons c rest ih =>
    by_cases h : c.Type_ = NonStructuralSchema
    · simp [checkStatusCondition, h, SetNestedField_single]
    · simp [checkStatusCondition, h, ih]

/-- What `Execute` does once the projection has succeeded. -/
theorem Execute_of_projection (item : Obj) (crd : CustomResourceDefinition)
    (hproj : FromUnstructured item = .ok crd) :
    Execute item =
      if PredicateA crd || PredicateB crd then
        (⟨some (setKey item "apiVersion" (.str v1beta1)), [], none⟩,
          setKey item "apiVersion" (.str v1beta1))
      else (⟨some item, [], none⟩, item) := by
  unfold Execute
  rw [hproj]
  simp only [checkSpecSchema_eq, checkStatusCondition_eq]
  have hB' : crd.Status.Conditions.any (fun c => decide (c.Type_ = NonStructuralSchema))
      = PredicateB crd := rfl
  rw [hB']
  cases hA : PredicateA crd <;> cases hB : PredicateB crd <;> simp [setKey_setKey_same]

/-- What `Execute` does when the projection fails. -/
theorem Execute_of_projection_error (item : Obj) (e : String)
    (hproj : FromUnstructured item = .error e) :
    Execute item =
      (⟨none, [], some (Wrap e "unable to convert unstructured item to CRD")⟩, item) := by
  unfold Execute
  rw [hproj]

/-! ## The typed view against the raw document -/

theorem sliceFromUnstructured_map {β γ : Type} (f : Value → Except String β)
    (g : β → γ) (h : Value → γ) (hfg : ∀ x y, f x = .ok y → g y = h x) :
    ∀ (xs : List Value) (ys : List β),
      sliceFromUnstructured f xs = .ok ys → ys.map g = xs.map h := by
  intro xs
  induction xs with
  | nil =>
    intro ys hys
    simp [sliceFromUnstructured] at hys
    subst hys
    rfl
  | cons x xs ih =>
    intro ys hys
    unfold sliceFromUnstructured at hys
    cases hx : f x with
    | error e => simp [hx] at hys
    | ok y =>
      cases hxs : sliceFromUnstructured f xs with
      | error e => simp [hx, hxs] at hys
      | ok ys' =>
        simp [hx, hxs] at hys
        subst hys
        simp [hfg x y hx, ih ys' hxs]

theorem versionFromUnstructured_lacks (x : Value) (v : CustomResourceDefinitionVersion)
    (hx : versionFromUnstructured x = .ok v) :
    versionLacksSchema v = !hasOpenAPIV3Schema x := by
  cases x with
  | null =>
    simp [versionFromUnstructured] at hx
    subst hx
    rfl
  | obj m =>
    unfold versionFromUnstructured at hx
    cases hn : stringFromUnstructured (lookup m "name") with
    | error e => simp [hn] at hx
    | ok name =>
      cases hs : validationFromUnstructured (lookup m "schema") with
      | error e => simp [hn, hs] at hx
      | ok schema =>
        simp [hn, hs] at hx
        subst hx
        unfold validationFromUnstructured at hs
        split at hs
        · next heq =>
          simp at hs; subst hs
          simp [versionLacksSchema, hasOpenAPIV3Schema, Value.field, heq]
        · next heq =>
          simp at hs; subst hs
          simp [versionLacksSchema, hasOpenAPIV3Schema, Value.field, heq]
        · next s heq =>
          split at hs
          · next ho =>
            simp at hs; subst hs
            simp [versionLacksSchema, hasOpenAPIV3Schema, Value.field, heq, ho]
          · next ho =>
            simp at hs; subst hs
            simp [versionLacksSchema, hasOpenAPIV3Schema, Value.field, heq, ho]
          · next o ho =>
            simp at hs; subst hs
            simp [versionLacksSchema, hasOpenAPIV3Schema, Value.field, heq, ho]
          · simp at hs
        · simp at hs
  | bool b => simp [versionFromUnstructured] at hx
  | num n => simp [versionFromUnstructured] at hx
  | str t => simp [versionFromUnstructured] at hx
  | arr xs => simp [versionFromUnstructured] at hx

theorem stringFromUnstructured_ok (o : Option Value) (t : String)
    (h : stringFromUnstructured o = .ok t) :
    (o = none ∧ t = "") ∨ (o = some .null ∧ t = "") ∨ o = some (.str t) := by
  unfold stringFromUnstructured at h
  split at h <;> simp_all

theorem conditionFromUnstructured_type (x : Value) (c : CustomResourceDefinitionCondition)
    (hx : conditionFromUnstructured x = .ok c) :
    c.Type_ = (conditionType x).getD "" := by
  cases x with
  | null =>
    simp [conditionFromUnstructured] at hx
    subst hx
    rfl
  | obj m =>
    unfold conditionFromUnstructured at hx
    cases ht : stringFromUnstructured (lookup m "type") with
    | error e => simp [ht] at hx
    | ok type =>
      cases hs : stringFromUnstructured (lookup m "status") with
      | error e => simp [ht, hs] at hx
      | ok status =>
        simp [ht, hs] at hx
        subst hx
        rcases stringFromUnstructured_ok _ _ ht with ⟨h, rfl⟩ | ⟨h, rfl⟩ | h <;>
          simp [conditionType, Value.field, h]
  | bool b => simp [conditionFromUnstructured] at hx
  | num n => simp [conditionFromUnstructured] at hx
  | str t => simp [conditionFromUnstructured] at hx
  | arr xs => simp [conditionFromUnstructured] at hx

theorem specFromUnstructured_versions (item : Obj) (spec : CustomResourceDefinitionSpec)
    (h : specFromUnstructured (lookup item "spec") = .ok spec) :
    sliceFromUnstructured versionFromUnstructured (docVersions item) = .ok spec.Versions := by
  unfold specFromUnstructured at h
  split at h
  · next heq => simp at h; subst h; simp [docVersions, Value.field, heq, sliceFromUnstructured]
  · next heq => simp at h; subst h; simp [docVersions, Value.field, heq, sliceFromUnstructured]
  · next m heq =>
    split at h
    · next hv =>
      simp at h; subst h; simp [docVersions, Value.field, heq, hv, sliceFromUnstructured]
    · next hv =>
      simp at h; subst h; simp [docVersions, Value.field, heq, hv, sliceFromUnstructured]
    · next xs hv =>
      cases hxs : sliceFromUnstructured versionFromUnstructured xs with
      | error e => simp [hxs] at h
      | ok versions =>
        simp [hxs] at h; subst h
        simp [docVersions, Value.field, heq, hv, hxs]
    · simp at h
  · simp at h

theorem statusFromUnstructured_conditions (item : Obj) (status : CustomResourceDefinitionStatus)
    (h : statusFromUnstructured (lookup item "status") = .ok status) :
    sliceFromUnstructured conditionFromUnstructured (docConditions item)
      = .ok status.Conditions := by
  unfold statusFromUnstructured at h
  split at h
  · next heq => simp at h; subst h; simp [docConditions, Value.field, heq, sliceFromUnstructured]
  · next heq => simp at h; subst h; simp [docConditions, Value.field, heq, sliceFromUnstructured]
  · next m heq =>
    split at h
    · next hv =>
      simp at h; subst h; simp [docConditions, Value.field, heq, hv, sliceFromUnstructured]
    · next hv =>
      simp at h; subst h; simp [docConditions, Value.field, heq, hv, sliceFromUnstructured]
    · next xs hv =>
      cases hxs : sliceFromUnstructured conditionFromUnstructured xs with
      | error e => simp [hxs] at h
      | ok conditions =>
        simp [hxs] at h; subst h
        simp [docConditions, Value.field, heq, hv, hxs]
    · simp at h
  · simp at h

/-- A successful projection is the successful projection of each field. -/
theorem FromUnstructured_ok (item : Obj) (crd : CustomResourceDefinition)
    (h : FromUnstructured item = .ok crd) :
    stringFromUnstructured (lookup item "kind") = .ok crd.Kind ∧
    stringFromUnstructured (lookup item "apiVersion") = .ok crd.APIVersion ∧
    nameFromUnstructured (lookup item "metadata") = .ok crd.Name ∧
    specFromUnstructured (lookup item "spec") = .ok crd.Spec ∧
    statusFromUnstructured (lookup item "status") = .ok crd.Status := by
  unfold FromUnstructured at h
  cases h1 : stringFromUnstructured (lookup item "kind") with
  | error e => simp [h1] at h
  | ok kind =>
    cases h2 : stringFromUnstructured (lookup item "apiVersion") with
    | error e => simp [h1, h2] at h
    | ok apiVersion =>
      cases h3 : nameFromUnstructured (lookup item "metadata") with
      | error e => simp [h1, h2, h3] at h
      | ok name =>
        cases h4 : specFromUnstructured (lookup item "spec") with
        | error e => simp [h1, h2, h3, h4] at h
        | ok spec =>
          cases h5 : statusFromUnstructured (lookup item "status") with
          | error e => simp [h1, h2, h3, h4, h5] at h
          | ok status =>
            simp [h1, h2, h3, h4, h5] at h
            subst h
            simp

/-- The projection of a document is the projection of its five fields. -/
theorem FromUnstructured_of_fields (item : Obj) (kind apiVersion name : String)
    (spec : CustomResourceDefinitionSpec) (status : CustomResourceDefinitionStatus)
    (h1 : stringFromUnstructured (lookup item "kind") = .ok kind)
    (h2 : stringFromUnstructured (lookup item "apiVersion") = .ok apiVersion)
    (h3 : nameFromUnstructured (lookup item "metadata") = .ok name)
    (h4 : specFromUnstructured (lookup item "spec") = .ok spec)
    (h5 : statusFromUnstructured (lookup item "status") = .ok status) :
    FromUnstructured item = .ok ⟨kind, apiVersion, name, spec, status⟩ := by
  simp [FromUnstructured, h1, h2, h3, h4, h5]

theorem PredicateA_eq_doc (item : Obj) (crd : CustomResourceDefinition)
    (h : FromUnstructured item = .ok crd) : PredicateA crd = docPredicateA item := by
  have hs := specFromUnstructured_versions item crd.Spec (FromUnstructured_ok item crd h).2.2.2.1
  have hm := sliceFromUnstructured_map versionFromUnstructured versionLacksSchema
    (fun x => !hasOpenAPIV3Schema x) versionFromUnstructured_lacks _ _ hs
  unfold PredicateA docPredicateA
  cases hv : crd.Spec.Versions with
  | nil =>
    cases hd : docVersions item with
    | nil => rfl
    | cons x xs => simp [hv, hd] at hm
  | cons first rest =>
    cases hd : docVersions item with
    | nil => simp [hv, hd] at hm
    | cons x xs =>
      simp [hv, hd] at hm
      simp [hm.1]

theorem PredicateB_eq_doc (item : Obj) (crd : CustomResourceDefinition)
    (h : FromUnstructured item = .ok crd) : PredicateB crd = docPredicateB item := by
  have hs := statusFromUnstructured_conditions item crd.Status
    (FromUnstructured_ok item crd h).2.2.2.2
  have hm := sliceFromUnstructured_map conditionFromUnstructured
    CustomResourceDefinitionCondition.Type_
    (fun x => (conditionType x).getD "") conditionFromUnstructured_type _ _ hs
  unfold PredicateB docPredicateB
  have key : ∀ {α : Type} (f : α → String) (l : List α),
      (l.map f).any (fun t => decide (t = NonStructuralSchema))
        = l.any (fun x => decide (f x = NonStructuralSchema)) := by
    intro α f l
    induction l with
    | nil => rfl
    | cons a l ih => simp only [List.map_cons, List.any_cons, ih]
  have e1 : crd.Status.Conditions.any (fun c => decide (c.Type_ = NonStructuralSchema))
      = (crd.Status.Conditions.map CustomResourceDefinitionCondition.Type_).any
          (fun t => decide (t = NonStructuralSchema)) := (key _ _).symm
  have e2 : (docConditions item).any (fun c => decide (conditionType c = some NonStructuralSchema))
      = ((docConditions item).map (fun x => (conditionType x).getD "")).any
          (fun t => decide (t = NonStructuralSchema)) := by
    rw [key]
    congr 1
    funext c
    cases hc : conditionType c with
    | none =>
      have : ¬ ("" = NonStructuralSchema) := by decide
      simp [this]
    | some t => simp
  rw [e1, e2, hm]

/-- What `Execute` does once the projection has succeeded, read on the raw document. -/
theorem Execute_of_projection_doc (item : Obj) (crd : CustomResourceDefinition)
    (hproj : FromUnstructured item = .ok crd) :
    Execute item =
      if docPredicateA item || docPredicateB item then
        (⟨some (setKey item "apiVersion" (.str v1beta1)), [], none⟩,
          setKey item "apiVersion" (.str v1beta1))
      else (⟨some item, [], none⟩, item) := by
  rw [Execute_of_projection item crd hproj, PredicateA_eq_doc item crd hproj,
    PredicateB_eq_doc item crd hproj]

theorem docPredicateB_of_mem (item : Obj) (c : Value) (hc : c ∈ docConditions item)
    (htype : c.field "type" = some (.str "NonStructuralSchema")) :
    docPredicateB item = true := by
  unfold docPredicateB
  rw [List.any_eq_true]
  refine ⟨c, hc, ?_⟩
  simp [conditionType, htype, NonStructuralSchema]

theorem docPredicateB_eq_false (item : Obj)
    (h : ∀ c ∈ docConditions item, c.field "type" ≠ some (.str "NonStructuralSchema")) :
    docPredicateB item = false := by
  unfold docPredicateB
  rw [List.any_eq_false]
  intro c hc
  have hne := h c hc
  unfold conditionType
  split
  · next t heq =>
    simp only [decide_eq_true_eq, Option.some.injEq, NonStructuralSchema]
    intro ht
    exact hne (by rw [heq, ht])
  · simp

theorem sliceFromUnstructured_error_of_mem {β : Type} (f : Value → Except String β)
    (xs : List Value) (x : Value) (hx : x ∈ xs) (e : String) (hf : f x = .error e) :
    ∃ e', sliceFromUnstructured f xs = .error e' := by
  induction xs with
  | nil => simp at hx
  | cons y ys ih =>
    unfold sliceFromUnstructured
    cases hy : f y with
    | error e₁ => exact ⟨e₁, rfl⟩
    | ok z =>
      have hmem : x ∈ ys := by
        rcases List.mem_cons.mp hx with h | h
        · subst h
          rw [hf] at hy
          cases hy
        · exact h
      obtain ⟨e', he'⟩ := ih hmem
      exact ⟨e', by simp [he']⟩

theorem FromUnstructured_error_of_spec (item : Obj) (e : String)
    (h : specFromUnstructured (lookup item "spec") = .error e) :
    ∃ e', FromUnstructured item = .error e' := by
  unfold FromUnstructured
  cases stringFromUnstructured (lookup item "kind") with
  | error e₁ => exact ⟨e₁, rfl⟩
  | ok kind =>
    cases stringFromUnstructured (lookup item "apiVersion") with
    | error e₁ => exact ⟨e₁, rfl⟩
    | ok apiVersion =>
      cases nameFromUnstructured (lookup item "metadata") with
      | error e₁ => exact ⟨e₁, rfl⟩
      | ok name => exact ⟨e, by simp [h]⟩

theorem FromUnstructured_error_of_status (item : Obj) (e : String)
    (h : statusFromUnstructured (lookup item "status") = .error e) :
    ∃ e', FromUnstructured item = .error e' := by
  unfold FromUnstructured
  cases stringFromUnstructured (lookup item "kind") with
  | error e₁ => exact ⟨e₁, rfl⟩
  | ok kind =>
    cases stringFromUnstructured (lookup item "apiVersion") with
    | error e₁ => exact ⟨e₁, rfl⟩
    | ok apiVersion =>
      cases nameFromUnstructured (lookup item "metadata") with
      | error e₁ => exact ⟨e₁, rfl⟩
      | ok name =>
        cases specFromUnstructured (lookup item "spec") with
        | error e₁ => exact ⟨e₁, rfl⟩
        | ok spec => exact ⟨e, by simp [h]⟩

theorem Value.field_obj_eq_some (m : Obj) (k : String) (v : Value)
    (h : (Value.obj m).field k = some v) : lookup m k = some v ∧ v ≠ .null := by
  have hdef : (Value.obj m).field k
      = match lookup m k with
        | some .null => none
        | r => r := rfl
  rw [hdef] at h
  split at h
  · cases h
  · next r hr =>
    refine ⟨h, ?_⟩
    intro hv
    exact hr (by rw [h, hv])

theorem Value.field_eq_some (x : Value) (k : String) (v : Value)
    (h : x.field k = some v) : ∃ m, x = .obj m ∧ lookup m k = some v ∧ v ≠ .null := by
  cases x with
  | obj m => exact ⟨m, rfl, Value.field_obj_eq_some m k v h⟩
  | null => simp [Value.field] at h
  | bool b => simp [Value.field] at h
  | num n => simp [Value.field] at h
  | str t => simp [Value.field] at h
  | arr xs => simp [Value.field] at h

theorem stringFromUnstructured_error (v : Value) (hnull : v ≠ .null)
    (hstr : ∀ s, v ≠ .str s) : ∃ e, stringFromUnstructured (some v) = .error e := by
  cases v with
  | null => exact absurd rfl hnull
  | str t => exact absurd rfl (hstr t)
  | bool b => exact ⟨_, rfl⟩
  | num n => exact ⟨_, rfl⟩
  | arr xs => exact ⟨_, rfl⟩
  | obj m => exact ⟨_, rfl⟩

/-- Writing a string to `apiVersion` keeps the document projectable, with the same view
apart from the version string. -/
theorem FromUnstructured_setKey_apiVersion (item : Obj) (crd : CustomResourceDefinition)
    (s : String) (h : FromUnstructured item = .ok crd) :
    FromUnstructured (setKey item "apiVersion" (.str s))
      = .ok ⟨crd.Kind, s, crd.Name, crd.Spec, crd.Status⟩ := by
  obtain ⟨h1, -, h3, h4, h5⟩ := FromUnstructured_ok item crd h
  apply FromUnstructured_of_fields
  · rw [lookup_setKey_ne _ _ _ _ (by decide)]; exact h1
  · rw [lookup_setKey_same]; rfl
  · rw [lookup_setKey_ne _ _ _ _ (by decide)]; exact h3
  · rw [lookup_setKey_ne _ _ _ _ (by decide)]; exact h4
  · rw [lookup_setKey_ne _ _ _ _ (by decide)]; exact h5

/-! ## Documents that differ in one place -/

theorem conditionFromUnstructured_differ (c c' : Value) (h : differOnlyInStatus c c') :
    (∃ e, conditionFromUnstructured c = .error e ∧ conditionFromUnstructured c' = .error e) ∨
    (∃ y y', conditionFromUnstructured c = .ok y ∧ conditionFromUnstructured c' = .ok y' ∧
      y'.Type_ = y.Type_) := by
  rcases h with h | ⟨m, m', s, s', rfl, rfl, hk, hs, hs'⟩
  · subst h
    cases hc : conditionFromUnstructured c' with
    | error e => exact Or.inl ⟨e, rfl, rfl⟩
    | ok y => exact Or.inr ⟨y, y, rfl, rfl, rfl⟩
  · have ht : lookup m' "type" = lookup m "type" := hk "type" (by decide)
    cases hty : stringFromUnstructured (lookup m "type") with
    | error e =>
      refine Or.inl ⟨e, ?_, ?_⟩
      · simp [conditionFromUnstructured, hty]
      · simp [conditionFromUnstructured, ht, hty]
    | ok t =>
      have hsta : stringFromUnstructured (lookup m "status") = .ok s := by rw [hs]; rfl
      have hsta' : stringFromUnstructured (lookup m' "status") = .ok s' := by rw [hs']; rfl
      refine Or.inr ⟨⟨t, s⟩, ⟨t, s'⟩, ?_, ?_, rfl⟩
      · simp [conditionFromUnstructured, hty, hsta]
      · simp [conditionFromUnstructured, ht, hty, hsta']

theorem sliceFromUnstructured_differ (cs cs' : List Value)
    (h : List.Forall₂ differOnlyInStatus cs cs') :
    (∃ e, sliceFromUnstructured conditionFromUnstructured cs = .error e ∧
      sliceFromUnstructured conditionFromUnstructured cs' = .error e) ∨
    (∃ ys ys', sliceFromUnstructured conditionFromUnstructured cs = .ok ys ∧
      sliceFromUnstructured conditionFromUnstructured cs' = .ok ys' ∧
      ys'.map CustomResourceDefinitionCondition.Type_
        = ys.map CustomResourceDefinitionCondition.Type_) := by
  induction h with
  | nil => exact Or.inr ⟨[], [], rfl, rfl, rfl⟩
  | cons hc _ ih =>
    rcases conditionFromUnstructured_differ _ _ hc with ⟨e, h1, h2⟩ | ⟨y, y', h1, h2, hy⟩
    · exact Or.inl ⟨e, by simp [sliceFromUnstructured, h1], by simp [sliceFromUnstructured, h2]⟩
    · rcases ih with ⟨e, i1, i2⟩ | ⟨ys, ys', i1, i2, hys⟩
      · exact Or.inl ⟨e, by simp [sliceFromUnstructured, h1, i1],
          by simp [sliceFromUnstructured, h2, i2]⟩
      · exact Or.inr ⟨y :: ys, y' :: ys', by simp [sliceFromUnstructured, h1, i1],
          by simp [sliceFromUnstructured, h2, i2], by simp [hy, hys]⟩

theorem PredicateB_congr (crd crd' : CustomResourceDefinition)
    (h : crd'.Status.Conditions.map CustomResourceDefinitionCondition.Type_
      = crd.Status.Conditions.map CustomResourceDefinitionCondition.Type_) :
    PredicateB crd' = PredicateB crd := by
  have key : ∀ (l : List CustomResourceDefinitionCondition),
      l.any (fun c => decide (c.Type_ = NonStructuralSchema))
        = (l.map CustomResourceDefinitionCondition.Type_).any
            (fun t => decide (t = NonStructuralSchema)) := by
    intro l
    induction l with
    | nil => rfl
    | cons a l ih => simp only [List.map_cons, List.any_cons, ih]
  unfold PredicateB
  rw [key, key, h]

/-- Two documents that differ only in the `status` strings of their conditions project
alike: both fail with the same error, or both succeed with views on which the two predicates
agree. -/
theorem FromUnstructured_differ (item item' st st' : Obj) (cs cs' : List Value)
    (hitem : ∀ k, k ≠ "status" → lookup item' k = lookup item k)
    (hst : lookup item "status" = some (.obj st))
    (hst' : lookup item' "status" = some (.obj st'))
    (hcs : lookup st "conditions" = some (.arr cs))
    (hcs' : lookup st' "conditions" = some (.arr cs'))
    (hdiff : List.Forall₂ differOnlyInStatus cs cs') :
    (∃ e, FromUnstructured item = .error e ∧ FromUnstructured item' = .error e) ∨
    (∃ crd crd', FromUnstructured item = .ok crd ∧ FromUnstructured item' = .ok crd' ∧
      PredicateA crd' = PredicateA crd ∧ PredicateB crd' = PredicateB crd) := by
  have hk : lookup item' "kind" = lookup item "kind" := hitem _ (by decide)
  have ha : lookup item' "apiVersion" = lookup item "apiVersion" := hitem _ (by decide)
  have hm : lookup item' "metadata" = lookup item "metadata" := hitem _ (by decide)
  have hs : lookup item' "spec" = lookup item "spec" := hitem _ (by decide)
  unfold FromUnstructured
  rw [hk, ha, hm, hs, hst, hst']
  cases stringFromUnstructured (lookup item "kind") with
  | error e => exact Or.inl ⟨e, rfl, rfl⟩
  | ok kind =>
    cases stringFromUnstructured (lookup item "apiVersion") with
    | error e => exact Or.inl ⟨e, rfl, rfl⟩
    | ok apiVersion =>
      cases nameFromUnstructured (lookup item "metadata") with
      | error e => exact Or.inl ⟨e, rfl, rfl⟩
      | ok name =>
        cases specFromUnstructured (lookup item "spec") with
        | error e => exact Or.inl ⟨e, rfl, rfl⟩
        | ok spec =>
          rcases sliceFromUnstructured_differ cs cs' hdiff with
            ⟨e, h1, h2⟩ | ⟨ys, ys', h1, h2, hys⟩
          · exact Or.inl ⟨e, by simp [statusFromUnstructured, hcs, h1],
              by simp [statusFromUnstructured, hcs', h2]⟩
          · refine Or.inr ⟨⟨kind, apiVersion, name, spec, ⟨ys⟩⟩,
              ⟨kind, apiVersion, name, spec, ⟨ys'⟩⟩,
              by simp [statusFromUnstructured, hcs, h1],
              by simp [statusFromUnstructured, hcs', h2], rfl, ?_⟩
            exact PredicateB_congr _ _ hys

theorem Value.field_obj_of_lookup (m : Obj) (k : String) (v : Value)
    (h : lookup m k = some v) (hv : v ≠ .null) : (Value.obj m).field k = some v := by
  have hdef : (Value.obj m).field k
      = match lookup m k with
        | some .null => none
        | r => r := rfl
  rw [hdef, h]
  cases v with
  | null => exact absurd rfl hv
  | bool b => rfl
  | num n => rfl
  | str t => rfl
  | arr xs => rfl
  | obj o => rfl

theorem docVersions_of_lookup (item sp : Obj) (xs : List Value)
    (hsp : lookup item "spec" = some (.obj sp))
    (hxs : lookup sp "versions" = some (.arr xs)) : docVersions item = xs := by
  unfold docVersions
  rw [Value.field_obj_of_lookup item "spec" _ hsp (fun h => Value.noConfusion h)]
  simp only
  rw [Value.field_obj_of_lookup sp "versions" _ hxs (fun h => Value.noConfusion h)]

theorem docConditions_congr (item item' : Obj)
    (h : lookup item' "status" = lookup item "status") :
    docConditions item' = docConditions item := by
  have hdef : ∀ m : Obj, (Value.obj m).field "status"
      = match lookup m "status" with
        | some .null => none
        | r => r := fun _ => rfl
  unfold docConditions
  rw [hdef item', hdef item, h]

theorem setKey_of_lookup_none (m : Obj) (k : String) (v : Value) (h : lookup m k = none) :
    setKey m k v = m ++ [(k, v)] := by
  induction m with
  | nil => rfl
  | cons p rest ih =>
    obtain ⟨k', v'⟩ := p
    by_cases hk : k' = k
    · simp [lookup, hk] at h
    · simp only [lookup, hk, if_false] at h
      simp [setKey, hk, ih h]

/-! ## Removing optional fields -/

theorem lookup_deleteKey_same (m : Obj) (k : String) : lookup (deleteKey m k) k = none := by
  induction m with
  | nil => rfl
  | cons p rest ih =>
    obtain ⟨k', v'⟩ := p
    by_cases h : k' = k
    · simp [deleteKey, h, ih]
    · simp [deleteKey, lookup, h, ih]

theorem lookup_deleteKey_ne (m : Obj) (k k₂ : String) (hne : k₂ ≠ k) :
    lookup (deleteKey m k) k₂ = lookup m k₂ := by
  induction m with
  | nil => rfl
  | cons p rest ih =>
    obtain ⟨k', v'⟩ := p
    by_cases h : k' = k
    · subst h
      have h₂ : ¬ k' = k₂ := fun h => hne h.symm
      simp [deleteKey, lookup, h₂, ih]
    · by_cases h₂ : k' = k₂
      · subst h₂
        simp [deleteKey, lookup, h]
      · simp [deleteKey, lookup, h, h₂, ih]

theorem sliceFromUnstructured_ok_of_forall {β : Type} (f : Value → Except String β)
    (xs : List Value) (h : ∀ x ∈ xs, ∃ y, f x = .ok y) :
    ∃ ys, sliceFromUnstructured f xs = .ok ys := by
  induction xs with
  | nil => exact ⟨[], rfl⟩
  | cons x xs ih =>
    obtain ⟨y, hy⟩ := h x (List.mem_cons_self _ _)
    obtain ⟨ys, hys⟩ := ih (fun z hz => h z (List.mem_cons_of_mem _ hz))
    exact ⟨y :: ys, by simp [sliceFromUnstructured, hy, hys]⟩

theorem sliceFromUnstructured_ok_mem {β : Type} (f : Value → Except String β)
    (xs : List Value) (ys : List β) (h : sliceFromUnstructured f xs = .ok ys)
    (x : Value) (hx : x ∈ xs) : ∃ y, f x = .ok y := by
  cases hf : f x with
  | ok y => exact ⟨y, rfl⟩
  | error e =>
    obtain ⟨e', he'⟩ := sliceFromUnstructured_error_of_mem f xs x hx e hf
    rw [he'] at h
    cases h

/-- Replacing one entry of a slice that converts by an entry that converts gives a slice that
converts. -/
theorem sliceFromUnstructured_replace {β : Type} (f : Value → Except String β)
    (pre post : List Value) (x x' : Value) (ys : List β) (y' : β)
    (h : sliceFromUnstructured f (pre ++ x :: post) = .ok ys) (hx' : f x' = .ok y') :
    ∃ ys', sliceFromUnstructured f (pre ++ x' :: post) = .ok ys' := by
  apply sliceFromUnstructured_ok_of_forall
  intro z hz
  rcases List.mem_append.mp hz with hz | hz
  · exact sliceFromUnstructured_ok_mem f _ ys h z (List.mem_append_left _ hz)
  · rcases List.mem_cons.mp hz with hz | hz
    · subst hz
      exact ⟨y', hx'⟩
    · exact sliceFromUnstructured_ok_mem f _ ys h z
        (List.mem_append_right _ (List.mem_cons_of_mem _ hz))

theorem versionFromUnstructured_name (m : Obj) (v : CustomResourceDefinitionVersion)
    (h : versionFromUnstructured (.obj m) = .ok v) :
    stringFromUnstructured (lookup m "name") = .ok v.Name := by
  unfold versionFromUnstructured at h
  cases hn : stringFromUnstructured (lookup m "name") with
  | error e => simp [hn] at h
  | ok name =>
    cases hs : validationFromUnstructured (lookup m "schema") with
    | error e => simp [hn, hs] at h
    | ok schema =>
      simp [hn, hs] at h
      subst h
      rfl

theorem versionFromUnstructured_deleteKey_schema (m : Obj)
    (v : CustomResourceDefinitionVersion) (h : versionFromUnstructured (.obj m) = .ok v) :
    versionFromUnstructured (.obj (deleteKey m "schema")) = .ok ⟨v.Name, none⟩ := by
  have hn := versionFromUnstructured_name m v h
  have h1 : lookup (deleteKey m "schema") "name" = lookup m "name" :=
    lookup_deleteKey_ne m "schema" "name" (by decide)
  have h2 : validationFromUnstructured (lookup (deleteKey m "schema") "schema") = .ok none := by
    rw [lookup_deleteKey_same]
    rfl
  simp [versionFromUnstructured, h1, hn, h2]

theorem versionFromUnstructured_deleteKey_openAPIV3Schema (m s : Obj)
    (v : CustomResourceDefinitionVersion) (h : versionFromUnstructured (.obj m) = .ok v) :
    versionFromUnstructured
        (.obj (setKey m "schema" (.obj (deleteKey s "openAPIV3Schema"))))
      = .ok ⟨v.Name, some ⟨none⟩⟩ := by
  have hn := versionFromUnstructured_name m v h
  have h1 : lookup (setKey m "schema" (.obj (deleteKey s "openAPIV3Schema"))) "name"
      = lookup m "name" := lookup_setKey_ne m "schema" "name" _ (by decide)
  have h2 : validationFromUnstructured
      (lookup (setKey m "schema" (.obj (deleteKey s "openAPIV3Schema"))) "schema")
      = .ok (some ⟨none⟩) := by
    rw [lookup_setKey_same]
    simp [validationFromUnstructured, lookup_deleteKey_same]
  simp [versionFromUnstructured, h1, hn, h2]

/-- A document whose versions entries are replaced by entries that convert still
projects. -/
theorem FromUnstructured_withVersions (item sp : Obj) (crd : CustomResourceDefinition)
    (versions : List Value) (ys : List CustomResourceDefinitionVersion)
    (h : FromUnstructured item = .ok crd)
    (hys : sliceFromUnstructured versionFromUnstructured versions = .ok ys) :
    FromUnstructured (withVersions item sp versions)
      = .ok ⟨crd.Kind, crd.APIVersion, crd.Name, ⟨ys⟩, crd.Status⟩ := by
  obtain ⟨h1, h2, h3, -, h5⟩ := FromUnstructured_ok item crd h
  unfold withVersions
  apply FromUnstructured_of_fields
  · rw [lookup_setKey_ne _ _ _ _ (by decide)]; exact h1
  · rw [lookup_setKey_ne _ _ _ _ (by decide)]; exact h2
  · rw [lookup_setKey_ne _ _ _ _ (by decide)]; exact h3
  · rw [lookup_setKey_same]
    simp [specFromUnstructured, lookup_setKey_same, hys]
  · rw [lookup_setKey_ne _ _ _ _ (by decide)]; exact h5

/-! ## The claims -/

/-- C1: Predicate A forces the legacy version.  For every document that projects
successfully and whose `spec.versions` has a first entry whose `schema` is absent, or
present but without `openAPIV3Schema`, `Execute` succeeds and the `apiVersion` of the returned
document is `"apiextensions.k8s.io/v1beta1"`, whatever the original `apiVersion`, the later
entries and the conditions are. -/
theorem C1_predicateA_forces_legacy (item : Obj) (crd : CustomResourceDefinition)
    (first : Value) (rest : List Value)
    (hproj : FromUnstructured item = .ok crd)
    (hvers : docVersions item = first :: rest)
    (hschema : first.field "schema" = none ∨
      ∃ schema, first.field "schema" = some schema ∧ schema.field "openAPIV3Schema" = none) :
    (Execute item).1.err = none ∧
    ∃ out, (Execute item).1.item = some out ∧ (Execute item).2 = out ∧
      lookup out "apiVersion" = some (.str "apiextensions.k8s.io/v1beta1") := by
  have hA : docPredicateA item = true := by
    unfold docPredicateA
    rw [hvers]
    rcases hschema with h | ⟨schema, h, ho⟩
    · simp [hasOpenAPIV3Schema, h]
    · simp [hasOpenAPIV3Schema, h, ho]
  rw [Execute_of_projection_doc item crd hproj, hA]
  simp [lookup_setKey_same, v1beta1]

/-- Witness of C1 on scenario 2 of the specification. -/
theorem C1_predicateA_forces_legacy_witness :
    (Execute scenario2).1.err = none ∧
    ∃ out, (Execute scenario2).1.item = some out ∧ (Execute scenario2).2 = out ∧
      lookup out "apiVersion" = some (.str "apiextensions.k8s.io/v1beta1") :=
  C1_predicateA_forces_legacy scenario2
    ⟨"", "apiextensions.k8s.io/v1", "", ⟨[⟨"v1", none⟩]⟩, ⟨[]⟩⟩
    (.obj [("name", .str "v1")]) [] rfl rfl (Or.inl rfl)

/-- C2: Predicate B forces the legacy version.  For every document that projects
successfully and whose `status.conditions` has, at any position, an entry whose `type` is
`"NonStructuralSchema"`, `Execute` succeeds and the `apiVersion` of the returned document is
`"apiextensions.k8s.io/v1beta1"`, whatever `spec.versions` holds. -/
theorem C2_predicateB_forces_legacy (item : Obj) (crd : CustomResourceDefinition)
    (pre post : List Value) (c : Value)
    (hproj : FromUnstructured item = .ok crd)
    (hconds : docConditions item = pre ++ c :: post)
    (htype : c.field "type" = some (.str "NonStructuralSchema")) :
    (Execute item).1.err = none ∧
    ∃ out, (Execute item).1.item = some out ∧ (Execute item).2 = out ∧
      lookup out "apiVersion" = some (.str "apiextensions.k8s.io/v1beta1") := by
  have hB : docPredicateB item = true :=
    docPredicateB_of_mem item c (by rw [hconds]; simp) htype
  rw [Execute_of_projection_doc item crd hproj, hB]
  simp [lookup_setKey_same, v1beta1]

/-- Witness of C2 on scenario 3 of the specification: every version has a well-formed
schema and the marker is the second condition. -/
theorem C2_predicateB_forces_legacy_witness :
    (Execute scenario3).1.err = none ∧
    ∃ out, (Execute scenario3).1.item = some out ∧ (Execute scenario3).2 = out ∧
      lookup out "apiVersion" = some (.str "apiextensions.k8s.io/v1beta1") :=
  C2_predicateB_forces_legacy scenario3
    ⟨"", "apiextensions.k8s.io/v1", "", ⟨[⟨"v1", some ⟨some ⟨⟩⟩⟩]⟩,
      ⟨[⟨"Established", "True"⟩, ⟨"NonStructuralSchema", "True"⟩]⟩⟩
    [.obj [("type", .str "Established"), ("status", .str "True")]] []
    (.obj [("type", .str "NonStructuralSchema"), ("status", .str "True")]) rfl rfl rfl

/-- C3: no mutation when neither predicate holds.  For every document that projects
successfully, in which `spec.versions` is empty or missing or its first entry has a `schema`
with `openAPIV3Schema` present, and in which no condition has the type
`"NonStructuralSchema"`, `Execute` succeeds and returns the input document itself, so its
`apiVersion` is the input `apiVersion`. -/
theorem C3_no_mutation (item : Obj) (crd : CustomResourceDefinition)
    (hproj : FromUnstructured item = .ok crd)
    (hvers : docVersions item = [] ∨
      ∃ first rest schema o, docVersions item = first :: rest ∧
        first.field "schema" = some schema ∧ schema.field "openAPIV3Schema" = some o)
    (hconds : ∀ c ∈ docConditions item, c.field "type" ≠ some (.str "NonStructuralSchema")) :
    (Execute item).1.err = none ∧ (Execute item).1.item = some item ∧ (Execute item).2 = item ∧
    ((Execute item).1.item.map fun out => lookup out "apiVersion")
      = some (lookup item "apiVersion") := by
  have hA : docPredicateA item = false := by
    unfold docPredicateA
    rcases hvers with h | ⟨first, rest, schema, o, h, hs, ho⟩
    · rw [h]
    · rw [h]
      simp [hasOpenAPIV3Schema, hs, ho]
  have hB : docPredicateB item = false := docPredicateB_eq_false item hconds
  rw [Execute_of_projection_doc item crd hproj, hA, hB]
  simp

/-- Witness of C3 on scenario 1 of the specification. -/
theorem C3_no_mutation_witness :
    (Execute scenario1).1.err = none ∧ (Execute scenario1).1.item = some scenario1 ∧
    (Execute scenario1).2 = scenario1 ∧
    ((Execute scenario1).1.item.map fun out => lookup out "apiVersion")
      = some (lookup scenario1 "apiVersion") :=
  C3_no_mutation scenario1
    ⟨"", "apiextensions.k8s.io/v1", "", ⟨[⟨"v1", some ⟨some ⟨⟩⟩⟩]⟩, ⟨[]⟩⟩ rfl
    (Or.inr ⟨.obj [("name", .str "v1"), ("schema", .obj [("openAPIV3Schema", .obj [])])], [],
      .obj [("openAPIV3Schema", .obj [])], .obj [], rfl, rfl, rfl⟩)
    (fun c hc => absurd hc (List.not_mem_nil c))

/-- C4: frame.  For every document on which `Execute` succeeds, every key other than the
top-level `apiVersion` reads the same value in the returned document as in the input, and the
entries other than `apiVersion` are the same entries in the same order: nothing else is
dropped, added or changed. -/
theorem C4_frame (item : Obj) (hsucc : (Execute item).1.err = none) :
    ∃ out, (Execute item).1.item = some out ∧
      (∀ k, k ≠ "apiVersion" → lookup out k = lookup item k) ∧
      out.filter (fun p => decide (p.1 ≠ "apiVersion"))
        = item.filter (fun p => decide (p.1 ≠ "apiVersion")) := by
  cases hproj : FromUnstructured item with
  | error e =>
    rw [Execute_of_projection_error item e hproj] at hsucc
    simp at hsucc
  | ok crd =>
    rw [Execute_of_projection item crd hproj]
    by_cases hp : (PredicateA crd || PredicateB crd) = true
    · rw [if_pos hp]
      exact ⟨_, rfl, fun k hk => lookup_setKey_ne item "apiVersion" k _ hk,
        filter_setKey item "apiVersion" _⟩
    · rw [if_neg hp]
      exact ⟨_, rfl, fun _ _ => rfl, rfl⟩

/-- Witness of C4 on a document with unknown fields. -/
theorem C4_frame_witness :
    ∃ out, (Execute unknownFieldsDoc).1.item = some out ∧
      (∀ k, k ≠ "apiVersion" → lookup out k = lookup unknownFieldsDoc k) ∧
      out.filter (fun p => decide (p.1 ≠ "apiVersion"))
        = unknownFieldsDoc.filter (fun p => decide (p.1 ≠ "apiVersion")) :=
  C4_frame unknownFieldsDoc rfl

/-- C5, as stated, fails on scenario 4: the projection fails and the value returned for the
item is `nil`, not the document. -/
theorem C5_returned_item_counterexample :
    FromUnstructured scenario4 = .error "cannot restore slice from versions" ∧
    (Execute scenario4).1.item = none ∧
    ¬ ((Execute scenario4).1.item = some scenario4) := by
  refine ⟨rfl, rfl, ?_⟩
  intro h
  have h' : (none : Option Obj) = some scenario4 := h
  cases h'

/-- C5, amended: for every document whose projection fails, `Execute` returns the wrapped
projection error and a `nil` item, and the content of the input document after the call is
its content before the call (nothing is written, `apiVersion` included). -/
theorem C5_atomic_on_projection_failure (item : Obj) (e : String)
    (hfail : FromUnstructured item = .error e) :
    (Execute item).1.err = some (Wrap e "unable to convert unstructured item to CRD") ∧
    (Execute item).1.item = none ∧
    (Execute item).2 = item ∧
    lookup (Execute item).2 "apiVersion" = lookup item "apiVersion" := by
  rw [Execute_of_projection_error item e hfail]
  exact ⟨rfl, rfl, rfl, rfl⟩

/-- Witness of the amended C5 on scenario 4. -/
theorem C5_atomic_on_projection_failure_witness :
    (Execute scenario4).1.err = some (Wrap "cannot restore slice from versions"
      "unable to convert unstructured item to CRD") ∧
    (Execute scenario4).1.item = none ∧
    (Execute scenario4).2 = scenario4 ∧
    lookup (Execute scenario4).2 "apiVersion" = lookup scenario4 "apiVersion" :=
  C5_atomic_on_projection_failure scenario4 "cannot restore slice from versions" rfl

/-- C6, as stated, fails on a document whose conditions are a `nil` entry, a record
without fields and a record with a `type` and no `status`: none of the three entries is a
record with string `type` and `status` fields, and `Execute` succeeds and returns the
document. -/
theorem C6_loose_entries_counterexample :
    docConditions looseConditionsDoc
      = [.null, .obj [], .obj [("type", .str "Established")]] ∧
    (∀ c ∈ docConditions looseConditionsDoc,
      ¬ ∃ m t s, c = .obj m ∧ lookup m "type" = some (.str t) ∧
        lookup m "status" = some (.str s)) ∧
    (Execute looseConditionsDoc).1.err = none ∧
    (Execute looseConditionsDoc).1.item = some looseConditionsDoc := by
  refine ⟨rfl, ?_, rfl, rfl⟩
  intro c hc
  have hc' : c ∈ [Value.null, .obj [], .obj [("type", .str "Established")]] := hc
  rintro ⟨m, t, s, hm, ht, hs⟩
  simp only [List.mem_cons, List.mem_singleton, List.not_mem_nil, or_false] at hc'
  rcases hc' with h | h | h
  · rw [h] at hm
    cases hm
  · rw [h] at hm
    cases hm
    cases ht
  · rw [h] at hm
    cases hm
    cases hs

/-- C6, amended: wrong-shaped fields are rejected.  For every document in which
`spec.versions` is present with a value other than `nil` that is not a sequence, or in which
an entry of `status.conditions` is a value other than `nil` that is not a record, or is a
record whose `type` or `status` is present with a value other than `nil` that is not a
string, `Execute` fails with the projection error
"unable to convert unstructured item to CRD" and returns no document. -/
theorem C6_wrong_shape_rejected (item : Obj)
    (hshape :
      (∃ spec versions, (Value.obj item).field "spec" = some spec ∧
          spec.field "versions" = some versions ∧ ∀ xs, versions ≠ .arr xs) ∨
      (∃ c, c ∈ docConditions item ∧ c ≠ .null ∧
          ((∀ m, c ≠ .obj m) ∨
           (∃ v, c.field "type" = some v ∧ ∀ s, v ≠ .str s) ∨
           (∃ v, c.field "status" = some v ∧ ∀ s, v ≠ .str s)))) :
    ∃ e, (Execute item).1.err = some ("unable to convert unstructured item to CRD: " ++ e) ∧
      (Execute item).1.item = none := by
  have hfail : ∃ e, FromUnstructured item = .error e := by
    rcases hshape with ⟨spec, versions, hspec, hvers, hnot⟩ | ⟨c, hc, hnull, hbad⟩
    · obtain ⟨hl, -⟩ := Value.field_obj_eq_some item "spec" spec hspec
      obtain ⟨m, rfl, hlv, hvnull⟩ := Value.field_eq_some spec "versions" versions hvers
      have herr : ∃ e, specFromUnstructured (lookup item "spec") = .error e := by
        rw [hl]
        unfold specFromUnstructured
        simp only [hlv]
        cases versions with
        | null => exact absurd rfl hvnull
        | arr xs => exact absurd rfl (hnot xs)
        | bool b => exact ⟨_, rfl⟩
        | num n => exact ⟨_, rfl⟩
        | str t => exact ⟨_, rfl⟩
        | obj o => exact ⟨_, rfl⟩
      obtain ⟨e, he⟩ := herr
      exact FromUnstructured_error_of_spec item e he
    · have hcerr : ∃ e, conditionFromUnstructured c = .error e := by
        rcases hbad with hrec | ⟨v, hv, hstr⟩ | ⟨v, hv, hstr⟩
        · cases c with
          | null => exact absurd rfl hnull
          | obj m => exact absurd rfl (hrec m)
          | bool b => exact ⟨_, rfl⟩
          | num n => exact ⟨_, rfl⟩
          | str t => exact ⟨_, rfl⟩
          | arr xs => exact ⟨_, rfl⟩
        · obtain ⟨m, rfl, hl, hvnull⟩ := Value.field_eq_some c "type" v hv
          obtain ⟨e, he⟩ := stringFromUnstructured_error v hvnull hstr
          exact ⟨e, by simp [conditionFromUnstructured, hl, he]⟩
        · obtain ⟨m, rfl, hl, hvnull⟩ := Value.field_eq_some c "status" v hv
          obtain ⟨e, he⟩ := stringFromUnstructured_error v hvnull hstr
          cases ht : stringFromUnstructured (lookup m "type") with
          | error e₁ => exact ⟨e₁, by simp [conditionFromUnstructured, ht]⟩
          | ok t => exact ⟨e, by simp [conditionFromUnstructured, hl, he, ht]⟩
      obtain ⟨e, he⟩ := hcerr
      obtain ⟨e₁, he₁⟩ := sliceFromUnstructured_error_of_mem conditionFromUnstructured
        (docConditions item) c hc e he
      cases hst : statusFromUnstructured (lookup item "status") with
      | error e₂ => exact FromUnstructured_error_of_status item e₂ hst
      | ok status =>
        have := statusFromUnstructured_conditions item status hst
        rw [he₁] at this
        cases this
  obtain ⟨e, he⟩ := hfail
  rw [Execute_of_projection_error item e he]
  exact ⟨e, rfl, rfl⟩

/-- Witness of the amended C6 on scenario 4 (`versions` is a string) and on a document with a
condition whose `type` is a number. -/
theorem C6_wrong_shape_rejected_witness :
    (∃ e, (Execute scenario4).1.err
        = some ("unable to convert unstructured item to CRD: " ++ e) ∧
      (Execute scenario4).1.item = none) ∧
    (∃ e, (Execute badConditionDoc).1.err
        = some ("unable to convert unstructured item to CRD: " ++ e) ∧
      (Execute badConditionDoc).1.item = none) :=
  ⟨C6_wrong_shape_rejected scenario4
      (Or.inl ⟨.obj [("versions", .str "not-a-list")], .str "not-a-list", rfl, rfl,
        fun _ h => Value.noConfusion h⟩),
   C6_wrong_shape_rejected badConditionDoc
      (Or.inr ⟨.obj [("type", .num 7), ("status", .str "True")],
        List.mem_cons_of_mem _ (List.mem_cons_self _ _), fun h => Value.noConfusion h,
        Or.inr (Or.inl ⟨.num 7, rfl, fun _ h => Value.noConfusion h⟩)⟩)⟩

/-- C7: the projection error is the only failure.  For every document, an error returned by
`Execute` is the wrapped error of the projection; whenever the projection succeeds `Execute`
returns a document and no error; and the two "unable to set apiversion to v1beta1" branches
cannot be taken, since setting the single key `apiVersion` never fails, in neither of the two
checks. -/
theorem C7_projection_error_only (item : Obj) :
    (∀ msg, (Execute item).1.err = some msg →
      ∃ e, FromUnstructured item = .error e ∧
        msg = Wrap e "unable to convert unstructured item to CRD") ∧
    (∀ crd, FromUnstructured item = .ok crd →
      (Execute item).1.err = none ∧ ∃ out, (Execute item).1.item = some out) ∧
    (∀ content value, ∃ content',
      SetNestedField content value ["apiVersion"] = .ok content') ∧
    (∀ crd content, ∃ content', checkSpecSchema crd content = .ok content') ∧
    (∀ conditions content, ∃ content', checkStatusCondition conditions content = .ok content') := by
  refine ⟨?_, ?_, ?_, ?_, ?_⟩
  · intro msg hmsg
    cases hproj : FromUnstructured item with
    | error e =>
      rw [Execute_of_projection_error item e hproj] at hmsg
      simp only [Option.some.injEq] at hmsg
      exact ⟨e, rfl, hmsg.symm⟩
    | ok crd =>
      rw [Execute_of_projection item crd hproj] at hmsg
      split at hmsg <;> simp at hmsg
  · intro crd hproj
    rw [Execute_of_projection item crd hproj]
    split
    · exact ⟨rfl, _, rfl⟩
    · exact ⟨rfl, _, rfl⟩
  · intro content value
    exact ⟨_, SetNestedField_single content value "apiVersion"⟩
  · intro crd content
    exact ⟨_, checkSpecSchema_eq crd content⟩
  · intro conditions content
    exact ⟨_, checkStatusCondition_eq conditions content⟩

/-- Witness of C7: scenario 4 fails with the projection error, scenario 3 projects and
succeeds. -/
theorem C7_projection_error_only_witness :
    (∃ e, FromUnstructured scenario4 = .error e ∧
      "unable to convert unstructured item to CRD: cannot restore slice from versions"
        = Wrap e "unable to convert unstructured item to CRD") ∧
    ((Execute scenario3).1.err = none ∧ ∃ out, (Execute scenario3).1.item = some out) :=
  ⟨(C7_projection_error_only scenario4).1 _ rfl,
   (C7_projection_error_only scenario3).2.1 _ rfl⟩

/-- C8: idempotence.  For every document on which `Execute` succeeds with output `out`,
`Execute` on `out` succeeds as well, returns `out` and leaves its content equal to `out`. -/
theorem C8_idempotent (item : Obj) (hsucc : (Execute item).1.err = none) :
    ∃ out, (Execute item).1.item = some out ∧
      (Execute out).1.err = none ∧ (Execute out).1.item = some out ∧ (Execute out).2 = out := by
  cases hproj : FromUnstructured item with
  | error e =>
    rw [Execute_of_projection_error item e hproj] at hsucc
    simp at hsucc
  | ok crd =>
    rw [Execute_of_projection item crd hproj]
    by_cases hp : (PredicateA crd || PredicateB crd) = true
    · rw [if_pos hp]
      refine ⟨_, rfl, ?_⟩
      have hproj' := FromUnstructured_setKey_apiVersion item crd v1beta1 hproj
      have hp' : (PredicateA ⟨crd.Kind, v1beta1, crd.Name, crd.Spec, crd.Status⟩
          || PredicateB ⟨crd.Kind, v1beta1, crd.Name, crd.Spec, crd.Status⟩) = true := hp
      rw [Execute_of_projection _ _ hproj', if_pos hp', setKey_setKey_same]
      exact ⟨rfl, rfl, rfl⟩
    · rw [if_neg hp]
      refine ⟨_, rfl, ?_⟩
      rw [Execute_of_projection item crd hproj, if_neg hp]
      exact ⟨rfl, rfl, rfl⟩

/-- Witness of C8 on scenario 3, which the first pass rewrites. -/
theorem C8_idempotent_witness :
    ∃ out, (Execute scenario3).1.item = some out ∧
      (Execute out).1.err = none ∧ (Execute out).1.item = some out ∧ (Execute out).2 = out :=
  C8_idempotent scenario3 rfl

/-- C9: the `status` of a condition is not consulted.  Two documents that differ only in
the `status` strings of entries of `status.conditions` get the same decision from `Execute`:
the same error, or the same `apiVersion` in the returned document.  And a condition of type
`"NonStructuralSchema"` makes the returned `apiVersion` the legacy literal whatever its
`status` string is (`"False"` as well as `"True"`). -/
theorem C9_status_not_consulted :
    (∀ (item item' st st' : Obj) (cs cs' : List Value),
      (∀ k, k ≠ "status" → lookup item' k = lookup item k) →
      lookup item "status" = some (.obj st) →
      lookup item' "status" = some (.obj st') →
      (∀ k, k ≠ "conditions" → lookup st' k = lookup st k) →
      lookup st "conditions" = some (.arr cs) →
      lookup st' "conditions" = some (.arr cs') →
      List.Forall₂ differOnlyInStatus cs cs' →
      (Execute item').1.err = (Execute item).1.err ∧
      ((Execute item').1.item.map fun out => lookup out "apiVersion")
        = ((Execute item).1.item.map fun out => lookup out "apiVersion")) ∧
    (∀ (item : Obj) (crd : CustomResourceDefinition) (pre post : List Value) (m : Obj)
      (s : String),
      FromUnstructured item = .ok crd →
      docConditions item = pre ++ .obj m :: post →
      lookup m "type" = some (.str "NonStructuralSchema") →
      lookup m "status" = some (.str s) →
      (Execute item).1.err = none ∧
      ∃ out, (Execute item).1.item = some out ∧
        lookup out "apiVersion" = some (.str "apiextensions.k8s.io/v1beta1")) := by
  constructor
  · intro item item' st st' cs cs' hitem hst hst' _ hcs hcs' hdiff
    have ha : lookup item' "apiVersion" = lookup item "apiVersion" := hitem _ (by decide)
    rcases FromUnstructured_differ item item' st st' cs cs' hitem hst hst' hcs hcs' hdiff with
      ⟨e, h1, h2⟩ | ⟨crd, crd', h1, h2, hA, hB⟩
    · rw [Execute_of_projection_error item e h1, Execute_of_projection_error item' e h2]
      exact ⟨rfl, rfl⟩
    · rw [Execute_of_projection item crd h1, Execute_of_projection item' crd' h2, hA, hB]
      by_cases hp : (PredicateA crd || PredicateB crd) = true
      · rw [if_pos hp, if_pos hp]
        simp [lookup_setKey_same]
      · rw [if_neg hp, if_neg hp]
        simp [ha]
  · intro item crd pre post m s hproj hconds htype _
    have hfield : (Value.obj m).field "type" = some (.str "NonStructuralSchema") :=
      Value.field_obj_of_lookup m "type" _ htype (fun h => Value.noConfusion h)
    have hB : docPredicateB item = true :=
      docPredicateB_of_mem item (.obj m) (by rw [hconds]; simp) hfield
    rw [Execute_of_projection_doc item crd hproj, hB]
    simp [lookup_setKey_same, v1beta1]

/-- Witness of C9: scenario 3 against the same document with status `"False"`. -/
theorem C9_status_not_consulted_witness :
    ((Execute scenario3False).1.err = (Execute scenario3).1.err ∧
      ((Execute scenario3False).1.item.map fun out => lookup out "apiVersion")
        = ((Execute scenario3).1.item.map fun out => lookup out "apiVersion")) ∧
    ((Execute scenario3False).1.err = none ∧
      ∃ out, (Execute scenario3False).1.item = some out ∧
        lookup out "apiVersion" = some (.str "apiextensions.k8s.io/v1beta1")) :=
  ⟨C9_status_not_consulted.1 scenario3 scenario3False
      [("conditions",
        .arr [.obj [("type", .str "Established"), ("status", .str "True")],
              .obj [("type", .str "NonStructuralSchema"), ("status", .str "True")]])]
      [("conditions",
        .arr [.obj [("type", .str "Established"), ("status", .str "True")],
              .obj [("type", .str "NonStructuralSchema"), ("status", .str "False")]])]
      [.obj [("type", .str "Established"), ("status", .str "True")],
       .obj [("type", .str "NonStructuralSchema"), ("status", .str "True")]]
      [.obj [("type", .str "Established"), ("status", .str "True")],
       .obj [("type", .str "NonStructuralSchema"), ("status", .str "False")]]
      (fun k hk => lookup_setKey_ne scenario3 "status" k _ hk) rfl rfl
      (fun k hk => lookup_setKey_ne
        [("conditions",
          .arr [.obj [("type", .str "Established"), ("status", .str "True")],
                .obj [("type", .str "NonStructuralSchema"), ("status", .str "True")]])]
        "conditions" k
        (.arr [.obj [("type", .str "Established"), ("status", .str "True")],
               .obj [("type", .str "NonStructuralSchema"), ("status", .str "False")]]) hk)
      rfl rfl
      (List.Forall₂.cons (Or.inl rfl)
        (List.Forall₂.cons
          (Or.inr ⟨[("type", .str "NonStructuralSchema"), ("status", .str "True")],
            [("type", .str "NonStructuralSchema"), ("status", .str "False")], "True", "False",
            rfl, rfl,
            fun k hk => lookup_setKey_ne
              [("type", .str "NonStructuralSchema"), ("status", .str "True")] "status" k
              (.str "False") hk,
            rfl, rfl⟩)
          List.Forall₂.nil)),
   C9_status_not_consulted.2 scenario3False
      ⟨"", "apiextensions.k8s.io/v1", "", ⟨[⟨"v1", some ⟨some ⟨⟩⟩⟩]⟩,
        ⟨[⟨"Established", "True"⟩, ⟨"NonStructuralSchema", "False"⟩]⟩⟩
      [.obj [("type", .str "Established"), ("status", .str "True")]] []
      [("type", .str "NonStructuralSchema"), ("status", .str "False")] "False"
      rfl rfl rfl rfl⟩

/-- C10: the first-entry-only rule.  Two documents that project successfully and differ only
in the entries of `spec.versions` after the first get the same decision from `Execute`: no
error, and the same `apiVersion` in the returned document.  And a document whose first entry
has `schema.openAPIV3Schema`, whose later entries have no schema, and which has no
`"NonStructuralSchema"` condition, is returned as it is. -/
theorem C10_first_entry_only :
    (∀ (item item' sp sp' : Obj) (first : Value) (rest rest' : List Value)
      (crd crd' : CustomResourceDefinition),
      FromUnstructured item = .ok crd →
      FromUnstructured item' = .ok crd' →
      (∀ k, k ≠ "spec" → lookup item' k = lookup item k) →
      lookup item "spec" = some (.obj sp) →
      lookup item' "spec" = some (.obj sp') →
      (∀ k, k ≠ "versions" → lookup sp' k = lookup sp k) →
      lookup sp "versions" = some (.arr (first :: rest)) →
      lookup sp' "versions" = some (.arr (first :: rest')) →
      (Execute item).1.err = none ∧ (Execute item').1.err = none ∧
      ((Execute item').1.item.map fun out => lookup out "apiVersion")
        = ((Execute item).1.item.map fun out => lookup out "apiVersion")) ∧
    (∀ (item : Obj) (crd : CustomResourceDefinition) (first schema o : Value)
      (rest : List Value),
      FromUnstructured item = .ok crd →
      docVersions item = first :: rest →
      first.field "schema" = some schema →
      schema.field "openAPIV3Schema" = some o →
      (∀ v ∈ rest, v.field "schema" = none) →
      (∀ c ∈ docConditions item, c.field "type" ≠ some (.str "NonStructuralSchema")) →
      (Execute item).1.err = none ∧ (Execute item).1.item = some item ∧
      (Execute item).2 = item) := by
  constructor
  · intro item item' sp sp' first rest rest' crd crd' hproj hproj' hitem hsp hsp' _ hv hv'
    have ha : lookup item' "apiVersion" = lookup item "apiVersion" := hitem _ (by decide)
    have hA : docPredicateA item' = docPredicateA item := by
      unfold docPredicateA
      rw [docVersions_of_lookup item sp _ hsp hv, docVersions_of_lookup item' sp' _ hsp' hv']
    have hB : docPredicateB item' = docPredicateB item := by
      unfold docPredicateB
      rw [docConditions_congr item item' (hitem _ (by decide))]
    rw [Execute_of_projection_doc item crd hproj, Execute_of_projection_doc item' crd' hproj',
      hA, hB]
    by_cases hp : (docPredicateA item || docPredicateB item) = true
    · rw [if_pos hp, if_pos hp]
      simp [lookup_setKey_same]
    · rw [if_neg hp, if_neg hp]
      simp [ha]
  · intro item crd first schema o rest hproj hvers hs ho _ hconds
    have hA : docPredicateA item = false := by
      unfold docPredicateA
      rw [hvers]
      simp [hasOpenAPIV3Schema, hs, ho]
    have hB : docPredicateB item = false := docPredicateB_eq_false item hconds
    rw [Execute_of_projection_doc item crd hproj, hA, hB]
    simp

/-- Witness of C10: scenario 1 against the same document with a schema-less second version,
which is returned unchanged. -/
theorem C10_first_entry_only_witness :
    ((Execute scenario1).1.err = none ∧ (Execute mixedVersionsDoc).1.err = none ∧
      ((Execute mixedVersionsDoc).1.item.map fun out => lookup out "apiVersion")
        = ((Execute scenario1).1.item.map fun out => lookup out "apiVersion")) ∧
    ((Execute mixedVersionsDoc).1.err = none ∧
      (Execute mixedVersionsDoc).1.item = some mixedVersionsDoc ∧
      (Execute mixedVersionsDoc).2 = mixedVersionsDoc) :=
  ⟨C10_first_entry_only.1 scenario1 mixedVersionsDoc
      [("versions",
        .arr [.obj [("name", .str "v1"), ("schema", .obj [("openAPIV3Schema", .obj [])])]])]
      [("versions",
        .arr [.obj [("name", .str "v1"), ("schema", .obj [("openAPIV3Schema", .obj [])])],
              .obj [("name", .str "v2")]])]
      (.obj [("name", .str "v1"), ("schema", .obj [("openAPIV3Schema", .obj [])])])
      [] [.obj [("name", .str "v2")]]
      ⟨"", "apiextensions.k8s.io/v1", "", ⟨[⟨"v1", some ⟨some ⟨⟩⟩⟩]⟩, ⟨[]⟩⟩
      ⟨"", "apiextensions.k8s.io/v1", "", ⟨[⟨"v1", some ⟨some ⟨⟩⟩⟩, ⟨"v2", none⟩]⟩, ⟨[]⟩⟩
      rfl rfl
      (fun k hk => lookup_setKey_ne scenario1 "spec" k _ hk) rfl rfl
      (fun k hk => lookup_setKey_ne
        [("versions",
          .arr [.obj [("name", .str "v1"), ("schema", .obj [("openAPIV3Schema", .obj [])])]])]
        "versions" k
        (.arr [.obj [("name", .str "v1"), ("schema", .obj [("openAPIV3Schema", .obj [])])],
               .obj [("name", .str "v2")]]) hk)
      rfl rfl,
   C10_first_entry_only.2 mixedVersionsDoc
      ⟨"", "apiextensions.k8s.io/v1", "", ⟨[⟨"v1", some ⟨some ⟨⟩⟩⟩, ⟨"v2", none⟩]⟩, ⟨[]⟩⟩
      (.obj [("name", .str "v1"), ("schema", .obj [("openAPIV3Schema", .obj [])])])
      (.obj [("openAPIV3Schema", .obj [])]) (.obj [])
      [.obj [("name", .str "v2")]]
      rfl rfl rfl rfl
      (fun v hv => by
        have hv' : v = .obj [("name", .str "v2")] := List.mem_singleton.mp hv
        rw [hv']
        rfl)
      (fun c hc => absurd hc (List.not_mem_nil c))⟩

/-- C11: no additional items.  For every document on which `Execute` succeeds, the list of
additional items it returns is empty, whether Predicate A, Predicate B, both or none held. -/
theorem C11_no_additional_items (item : Obj) (hsucc : (Execute item).1.err = none) :
    (Execute item).1.additionalItems = [] := by
  cases hproj : FromUnstructured item with
  | error e =>
    rw [Execute_of_projection_error item e hproj] at hsucc
    simp at hsucc
  | ok crd =>
    rw [Execute_of_projection item crd hproj]
    split <;> rfl

/-- Witness of C11 on scenario 3, where Predicate B holds. -/
theorem C11_no_additional_items_witness : (Execute scenario3).1.additionalItems = [] :=
  C11_no_additional_items scenario3 rfl

/-- C13: `AppliesTo` returns a `nil` error and a selector whose included resources are the
one-element list `["customresourcedefinition.apiextensions.k8s.io"]` and whose other fields
are empty. -/
theorem C13_appliesTo :
    AppliesTo.2 = none ∧
    AppliesTo.1.IncludedResources = ["customresourcedefinition.apiextensions.k8s.io"] ∧
    AppliesTo.1.ExcludedResources = [] ∧
    AppliesTo.1.IncludedNamespaces = [] ∧
    AppliesTo.1.ExcludedNamespaces = [] ∧
    AppliesTo.1.LabelSelector = "" :=
  ⟨rfl, rfl, rfl, rfl, rfl, rfl⟩

/-- C14: the code at a failing input.  The CustomResourceDefinition `webhookCRD` references
the Service `conv-svc`; `Execute` succeeds on it, returns the item as it is and returns no
additional item, so the identifier of the referenced Service is not among the items to back
up, against the doc comment of the type. -/
theorem C14_referenced_resource_not_returned :
    (((((Value.obj webhookCRD).field "spec").bind fun v => v.field "conversion").bind
        fun v => v.field "webhook").bind fun v => v.field "clientConfig").bind
        (fun v => v.field "service")
      = some (.obj [("namespace", .str "default"), ("name", .str "conv-svc")]) ∧
    (Execute webhookCRD).1.err = none ∧
    (Execute webhookCRD).1.item = some webhookCRD ∧
    (Execute webhookCRD).1.additionalItems = [] ∧
    ¬ ((⟨"", "services", "default", "conv-svc"⟩ : ResourceIdentifier)
        ∈ (Execute webhookCRD).1.additionalItems) := by
  refine ⟨rfl, rfl, rfl, rfl, ?_⟩
  intro h
  have h' : (⟨"", "services", "default", "conv-svc"⟩ : ResourceIdentifier) ∈ [] := h
  exact absurd h' (List.not_mem_nil _)

/-- C15: the first entry is a sufficient sample when the entries agree.  For every
non-empty versions list in which all entries agree on whether they lack a schema, the
first-entry check of `Execute` writes exactly when some entry lacks a schema, and exactly when
every entry lacks a schema. -/
theorem C15_first_entry_sufficient (crd : CustomResourceDefinition) (content : Obj)
    (hne : crd.Spec.Versions ≠ [])
    (hagree : ∀ v ∈ crd.Spec.Versions, ∀ w ∈ crd.Spec.Versions,
      versionLacksSchema v = versionLacksSchema w) :
    checkSpecSchema crd content
      = .ok (if someVersionLacksSchema crd.Spec.Versions
          then setKey content "apiVersion" (.str v1beta1) else content) ∧
    checkSpecSchema crd content
      = .ok (if everyVersionLacksSchema crd.Spec.Versions
          then setKey content "apiVersion" (.str v1beta1) else content) ∧
    PredicateA crd = someVersionLacksSchema crd.Spec.Versions ∧
    PredicateA crd = everyVersionLacksSchema crd.Spec.Versions := by
  have hA : PredicateA crd = someVersionLacksSchema crd.Spec.Versions ∧
      PredicateA crd = everyVersionLacksSchema crd.Spec.Versions := by
    unfold PredicateA someVersionLacksSchema everyVersionLacksSchema
    cases hv : crd.Spec.Versions with
    | nil => exact absurd hv hne
    | cons first rest =>
      rw [hv] at hagree
      have hrest : ∀ w ∈ rest, versionLacksSchema w = versionLacksSchema first :=
        fun w hw => (hagree first (List.mem_cons_self _ _) w (List.mem_cons_of_mem _ hw)).symm
      cases hf : versionLacksSchema first with
      | true =>
        rw [hf] at hrest
        constructor
        · simp [hf]
        · simp only [List.all_cons, hf, Bool.true_and]
          exact (List.all_eq_true.mpr hrest).symm
      | false =>
        rw [hf] at hrest
        constructor
        · simp only [List.any_cons, hf, Bool.false_or]
          symm
          rw [List.any_eq_false]
          intro w hw
          simp [hrest w hw]
        · simp [hf]
  rw [checkSpecSchema_eq, hA.1]
  refine ⟨rfl, ?_, rfl, ?_⟩
  · rw [← hA.1, hA.2]
  · rw [← hA.1, hA.2]

/-- Witness of C15 on two versions that both lack a schema. -/
theorem C15_first_entry_sufficient_witness :
    checkSpecSchema ⟨"", "", "", ⟨[⟨"v1", none⟩, ⟨"v2", some ⟨none⟩⟩]⟩, ⟨[]⟩⟩ scenario2
      = .ok (if someVersionLacksSchema [⟨"v1", none⟩, ⟨"v2", some ⟨none⟩⟩]
          then setKey scenario2 "apiVersion" (.str v1beta1) else scenario2) ∧
    checkSpecSchema ⟨"", "", "", ⟨[⟨"v1", none⟩, ⟨"v2", some ⟨none⟩⟩]⟩, ⟨[]⟩⟩ scenario2
      = .ok (if everyVersionLacksSchema [⟨"v1", none⟩, ⟨"v2", some ⟨none⟩⟩]
          then setKey scenario2 "apiVersion" (.str v1beta1) else scenario2) ∧
    PredicateA ⟨"", "", "", ⟨[⟨"v1", none⟩, ⟨"v2", some ⟨none⟩⟩]⟩, ⟨[]⟩⟩
      = someVersionLacksSchema [⟨"v1", none⟩, ⟨"v2", some ⟨none⟩⟩] ∧
    PredicateA ⟨"", "", "", ⟨[⟨"v1", none⟩, ⟨"v2", some ⟨none⟩⟩]⟩, ⟨[]⟩⟩
      = everyVersionLacksSchema [⟨"v1", none⟩, ⟨"v2", some ⟨none⟩⟩] :=
  C15_first_entry_sufficient ⟨"", "", "", ⟨[⟨"v1", none⟩, ⟨"v2", some ⟨none⟩⟩]⟩, ⟨[]⟩⟩ scenario2
    (by decide) (by decide)

/-- C16: `Execute` equals the single-decision reference.  For every document that projects
successfully, the two sequential checks of the code, each with its own write, give the
document of `RemapReference`: the write happens once when one predicate holds, when both
hold, and when several conditions carry the marker. -/
theorem C16_single_decision (item : Obj) (crd : CustomResourceDefinition)
    (hproj : FromUnstructured item = .ok crd) :
    Execute item = (⟨some (RemapReference crd item), [], none⟩, RemapReference crd item) ∧
    (∀ content, (checkSpecSchema crd content).bind
        (checkStatusCondition crd.Status.Conditions) = .ok (RemapReference crd content)) := by
  constructor
  · rw [Execute_of_projection item crd hproj]
    unfold RemapReference
    split <;> rfl
  · intro content
    rw [checkSpecSchema_eq]
    show checkStatusCondition crd.Status.Conditions _ = _
    rw [checkStatusCondition_eq]
    have hB : crd.Status.Conditions.any (fun c => decide (c.Type_ = NonStructuralSchema))
        = PredicateB crd := rfl
    rw [hB]
    unfold RemapReference
    cases PredicateA crd <;> cases PredicateB crd <;> simp [setKey_setKey_same]

/-- Witness of C16 on a document where both predicates hold and two conditions carry the
marker. -/
theorem C16_single_decision_witness :
    Execute bothPredicatesDoc
      = (⟨some (setKey bothPredicatesDoc "apiVersion" (.str v1beta1)), [], none⟩,
          setKey bothPredicatesDoc "apiVersion" (.str v1beta1)) :=
  (C16_single_decision bothPredicatesDoc
    ⟨"", "apiextensions.k8s.io/v1", "", ⟨[⟨"v1", none⟩]⟩,
      ⟨[⟨"NonStructuralSchema", "True"⟩, ⟨"NonStructuralSchema", "False"⟩]⟩⟩ rfl).1

/-- C17: `Execute` preserves projectability and the projected view.  For every document on
which `Execute` succeeds, the returned document projects successfully, with the same name,
versions (so the same schema presence in each entry) and conditions as the input, and both
predicates have the same value on the two views. -/
theorem C17_projection_preserved (item : Obj) (hsucc : (Execute item).1.err = none) :
    ∃ out crd crd', (Execute item).1.item = some out ∧
      FromUnstructured item = .ok crd ∧ FromUnstructured out = .ok crd' ∧
      crd'.Name = crd.Name ∧ crd'.Spec.Versions = crd.Spec.Versions ∧
      crd'.Spec.Versions.map versionLacksSchema = crd.Spec.Versions.map versionLacksSchema ∧
      crd'.Status.Conditions = crd.Status.Conditions ∧
      PredicateA crd' = PredicateA crd ∧ PredicateB crd' = PredicateB crd := by
  cases hproj : FromUnstructured item with
  | error e =>
    rw [Execute_of_projection_error item e hproj] at hsucc
    simp at hsucc
  | ok crd =>
    rw [Execute_of_projection item crd hproj]
    by_cases hp : (PredicateA crd || PredicateB crd) = true
    · rw [if_pos hp]
      exact ⟨_, crd, _, rfl, rfl, FromUnstructured_setKey_apiVersion item crd v1beta1 hproj,
        rfl, rfl, rfl, rfl, rfl, rfl⟩
    · rw [if_neg hp]
      exact ⟨item, crd, crd, rfl, rfl, hproj, rfl, rfl, rfl, rfl, rfl, rfl⟩

/-- Witness of C17 on scenario 3, which `Execute` rewrites. -/
theorem C17_projection_preserved_witness :
    ∃ out crd crd', (Execute scenario3).1.item = some out ∧
      FromUnstructured scenario3 = .ok crd ∧ FromUnstructured out = .ok crd' ∧
      crd'.Name = crd.Name ∧ crd'.Spec.Versions = crd.Spec.Versions ∧
      crd'.Spec.Versions.map versionLacksSchema = crd.Spec.Versions.map versionLacksSchema ∧
      crd'.Status.Conditions = crd.Status.Conditions ∧
      PredicateA crd' = PredicateA crd ∧ PredicateB crd' = PredicateB crd :=
  C17_projection_preserved scenario3 rfl

/-- C18: the overwrite also inserts.  For every document that projects successfully and has
no top-level `apiVersion` key: when Predicate A or Predicate B holds, the returned document is
the input followed by a new `apiVersion` entry with the legacy literal, so its keys are the
input keys plus `apiVersion`; when neither holds, the returned document is the input and
still has no `apiVersion` key. -/
theorem C18_overwrite_inserts (item : Obj) (crd : CustomResourceDefinition)
    (hproj : FromUnstructured item = .ok crd)
    (hno : lookup item "apiVersion" = none) :
    ((PredicateA crd || PredicateB crd) = true →
      ∃ out, (Execute item).1.item = some out ∧
        out = item ++ [("apiVersion", .str "apiextensions.k8s.io/v1beta1")] ∧
        out.map Prod.fst = item.map Prod.fst ++ ["apiVersion"] ∧
        lookup out "apiVersion" = some (.str "apiextensions.k8s.io/v1beta1") ∧
        ∀ k, k ≠ "apiVersion" → lookup out k = lookup item k) ∧
    ((PredicateA crd || PredicateB crd) = false →
      ∃ out, (Execute item).1.item = some out ∧ out = item ∧
        lookup out "apiVersion" = none) := by
  rw [Execute_of_projection item crd hproj]
  constructor
  · intro hp
    rw [if_pos hp]
    refine ⟨_, rfl, setKey_of_lookup_none item _ _ hno, ?_, lookup_setKey_same item _ _,
      fun k hk => lookup_setKey_ne item "apiVersion" k _ hk⟩
    rw [setKey_of_lookup_none item _ _ hno]
    simp
  · intro hp
    rw [if_neg (by simp [hp])]
    exact ⟨item, rfl, rfl, hno⟩

/-- Witness of C18 on two documents without `apiVersion`, one that is rewritten and one that
is not. -/
theorem C18_overwrite_inserts_witness :
    (∃ out, (Execute noVersionLegacyDoc).1.item = some out ∧
        out = noVersionLegacyDoc ++ [("apiVersion", .str "apiextensions.k8s.io/v1beta1")] ∧
        out.map Prod.fst = noVersionLegacyDoc.map Prod.fst ++ ["apiVersion"] ∧
        lookup out "apiVersion" = some (.str "apiextensions.k8s.io/v1beta1") ∧
        ∀ k, k ≠ "apiVersion" → lookup out k = lookup noVersionLegacyDoc k) ∧
    (∃ out, (Execute noVersionModernDoc).1.item = some out ∧ out = noVersionModernDoc ∧
        lookup out "apiVersion" = none) :=
  ⟨(C18_overwrite_inserts noVersionLegacyDoc
      ⟨"CustomResourceDefinition", "", "", ⟨[⟨"v1", none⟩]⟩, ⟨[]⟩⟩ rfl rfl).1 rfl,
   (C18_overwrite_inserts noVersionModernDoc
      ⟨"CustomResourceDefinition", "", "", ⟨[⟨"v1", some ⟨some ⟨⟩⟩⟩]⟩, ⟨[]⟩⟩ rfl rfl).2 rfl⟩

/-- C12: absent optional fields are not errors.  For every document that projects
successfully, the document without `status`, the document without `status.conditions`, the
document in which one versions entry has lost its `schema` key, and the document in which
the `schema` of one versions entry has lost its `openAPIV3Schema` key, all project
successfully.  And on scenario 2, whose only version has no `schema`, `Execute` succeeds and
writes the legacy literal to `apiVersion`. -/
theorem C12_absent_optional_fields :
    (∀ (item : Obj) (crd : CustomResourceDefinition),
      FromUnstructured item = .ok crd →
      ∃ crd', FromUnstructured (deleteKey item "status") = .ok crd') ∧
    (∀ (item st : Obj) (crd : CustomResourceDefinition),
      FromUnstructured item = .ok crd →
      lookup item "status" = some (.obj st) →
      ∃ crd', FromUnstructured (setKey item "status" (.obj (deleteKey st "conditions")))
        = .ok crd') ∧
    (∀ (item sp m : Obj) (pre post : List Value) (crd : CustomResourceDefinition),
      FromUnstructured item = .ok crd →
      lookup item "spec" = some (.obj sp) →
      lookup sp "versions" = some (.arr (pre ++ .obj m :: post)) →
      ∃ crd', FromUnstructured
        (withVersions item sp (pre ++ .obj (deleteKey m "schema") :: post)) = .ok crd') ∧
    (∀ (item sp m s : Obj) (pre post : List Value) (crd : CustomResourceDefinition),
      FromUnstructured item = .ok crd →
      lookup item "spec" = some (.obj sp) →
      lookup sp "versions" = some (.arr (pre ++ .obj m :: post)) →
      lookup m "schema" = some (.obj s) →
      ∃ crd', FromUnstructured
        (withVersions item sp
          (pre ++ .obj (setKey m "schema" (.obj (deleteKey s "openAPIV3Schema"))) :: post))
        = .ok crd') ∧
    ((Execute scenario2).1.err = none ∧
      ∃ out, (Execute scenario2).1.item = some out ∧
        lookup out "apiVersion" = some (.str "apiextensions.k8s.io/v1beta1")) := by
  refine ⟨?_, ?_, ?_, ?_, rfl, _, rfl, rfl⟩
  · intro item crd hproj
    obtain ⟨h1, h2, h3, h4, -⟩ := FromUnstructured_ok item crd hproj
    refine ⟨_, FromUnstructured_of_fields _ crd.Kind crd.APIVersion crd.Name crd.Spec ⟨[]⟩
      ?_ ?_ ?_ ?_ ?_⟩
    · rw [lookup_deleteKey_ne _ _ _ (by decide)]; exact h1
    · rw [lookup_deleteKey_ne _ _ _ (by decide)]; exact h2
    · rw [lookup_deleteKey_ne _ _ _ (by decide)]; exact h3
    · rw [lookup_deleteKey_ne _ _ _ (by decide)]; exact h4
    · rw [lookup_deleteKey_same]; rfl
  · intro item st crd hproj _
    obtain ⟨h1, h2, h3, h4, -⟩ := FromUnstructured_ok item crd hproj
    refine ⟨_, FromUnstructured_of_fields _ crd.Kind crd.APIVersion crd.Name crd.Spec ⟨[]⟩
      ?_ ?_ ?_ ?_ ?_⟩
    · rw [lookup_setKey_ne _ _ _ _ (by decide)]; exact h1
    · rw [lookup_setKey_ne _ _ _ _ (by decide)]; exact h2
    · rw [lookup_setKey_ne _ _ _ _ (by decide)]; exact h3
    · rw [lookup_setKey_ne _ _ _ _ (by decide)]; exact h4
    · rw [lookup_setKey_same]
      simp [statusFromUnstructured, lookup_deleteKey_same]
  · intro item sp m pre post crd hproj hsp hv
    have hs := specFromUnstructured_versions item crd.Spec
      (FromUnstructured_ok item crd hproj).2.2.2.1
    rw [docVersions_of_lookup item sp _ hsp hv] at hs
    obtain ⟨v, hvm⟩ := sliceFromUnstructured_ok_mem versionFromUnstructured _ _ hs (.obj m)
      (by simp)
    obtain ⟨ys', hys'⟩ := sliceFromUnstructured_replace versionFromUnstructured pre post
      (.obj m) (.obj (deleteKey m "schema")) _ _ hs
      (versionFromUnstructured_deleteKey_schema m v hvm)
    exact ⟨_, FromUnstructured_withVersions item sp crd _ ys' hproj hys'⟩
  · intro item sp m s pre post crd hproj hsp hv _
    have hs := specFromUnstructured_versions item crd.Spec
      (FromUnstructured_ok item crd hproj).2.2.2.1
    rw [docVersions_of_lookup item sp _ hsp hv] at hs
    obtain ⟨v, hvm⟩ := sliceFromUnstructured_ok_mem versionFromUnstructured _ _ hs (.obj m)
      (by simp)
    obtain ⟨ys', hys'⟩ := sliceFromUnstructured_replace versionFromUnstructured pre post
      (.obj m) (.obj (setKey m "schema" (.obj (deleteKey s "openAPIV3Schema")))) _ _ hs
      (versionFromUnstructured_deleteKey_openAPIV3Schema m s v hvm)
    exact ⟨_, FromUnstructured_withVersions item sp crd _ ys' hproj hys'⟩

/-- Witness of C12: the four removals on scenarios 3 and 1. -/
theorem C12_absent_optional_fields_witness :
    (∃ crd', FromUnstructured (deleteKey scenario3 "status") = .ok crd') ∧
    (∃ crd', FromUnstructured (setKey scenario3 "status"
        (.obj (deleteKey
          [("conditions",
            .arr [.obj [("type", .str "Established"), ("status", .str "True")],
                  .obj [("type", .str "NonStructuralSchema"), ("status", .str "True")]])]
          "conditions"))) = .ok crd') ∧
    (∃ crd', FromUnstructured
        (withVersions scenario1
          [("versions",
            .arr [.obj [("name", .str "v1"), ("schema", .obj [("openAPIV3Schema", .obj [])])]])]
          ([] ++ .obj (deleteKey
            [("name", .str "v1"), ("schema", .obj [("openAPIV3Schema", .obj [])])] "schema")
            :: [])) = .ok crd') ∧
    (∃ crd', FromUnstructured
        (withVersions scenario1
          [("versions",
            .arr [.obj [("name", .str "v1"), ("schema", .obj [("openAPIV3Schema", .obj [])])]])]
          ([] ++ .obj (setKey
            [("name", .str "v1"), ("schema", .obj [("openAPIV3Schema", .obj [])])] "schema"
            (.obj (deleteKey [("openAPIV3Schema", .obj [])] "openAPIV3Schema"))) :: []))
        = .ok crd') :=
  ⟨C12_absent_optional_fields.1 scenario3
      ⟨"", "apiextensions.k8s.io/v1", "", ⟨[⟨"v1", some ⟨some ⟨⟩⟩⟩]⟩,
        ⟨[⟨"Established", "True"⟩, ⟨"NonStructuralSchema", "True"⟩]⟩⟩ rfl,
   C12_absent_optional_fields.2.1 scenario3 _
      ⟨"", "apiextensions.k8s.io/v1", "", ⟨[⟨"v1", some ⟨some ⟨⟩⟩⟩]⟩,
        ⟨[⟨"Established", "True"⟩, ⟨"NonStructuralSchema", "True"⟩]⟩⟩ rfl rfl,
   C12_absent_optional_fields.2.2.1 scenario1 _ _ [] []
      ⟨"", "apiextensions.k8s.io/v1", "", ⟨[⟨"v1", some ⟨some ⟨⟩⟩⟩]⟩, ⟨[]⟩⟩ rfl rfl rfl,
   C12_absent_optional_fields.2.2.2.1 scenario1 _ _ _ [] []
      ⟨"", "apiextensions.k8s.io/v1", "", ⟨[⟨"v1", some ⟨some ⟨⟩⟩⟩]⟩, ⟨[]⟩⟩ rfl rfl rfl rfl⟩

end RemapCRD
